import Mathlib

/-!
# nvim-finder-rplugin: session registry, panes and command dispatch

A shallow embedding of `static.go` and `finder.go`.

* The editor (go-nvim), the tree model (go-tree) and `filepath.Join` are
  external collaborators.  They are taken as a parameter `Host H` over an
  arbitrary host state `H`: every theorem holds for every behaviour of them.
* Host queries (`Windows`, `Buffers`, `Name`, `Focused`, ...) are read-only
  functions of the host state; every other host call may change the host state
  and is recorded, in order, in a call log.
* A `*Finder` is a record with the address of its allocation, so that the
  pointer comparison `finder == f` of `ClosePane` is the comparison of addresses.
* The package variables `finders` and the allocator are the fields of `Session`.
-/

namespace NvimFinder

/-! ## Handles and values of the collaborators -/

abbrev Err := String
abbrev Window := Nat
abbrev Buffer := Nat
abbrev Tree := Nat

/-- What `tree.Operator` exposes to this package: `o.Name()`, `o.Path()`,
`tree.Type(o)` (the field `TypeOf`) and `tree.OriginalPath(o)`. -/
structure Operator where
  Name : String
  Path : String
  TypeOf : String
  OriginalPath : String
deriving DecidableEq, Repr

abbrev Operators := List Operator

/-- The completion modes of go-nvim used here: `nvim.CompletionNone`, `nvim.CompletionDir`. -/
inductive Completion where
  | None
  | Dir
deriving DecidableEq, Repr

/-- The methods of `*tree.Tree` called by `finder.go`. -/
inductive TreeOp where
  | Open | CD | Root | Home | Trash | Project | Up | Down | Select | ReverseSelected
  | Toggle | ToggleRec | CreateDir | CreateFile | Rename | Move | OpenExternally
  | OpenDirExternally | Remove | Restore | RemovePermanently | Copy | CopiedList
  | Paste | Yank
deriving DecidableEq, Repr

/-- The host calls that are not queries.  Each call made is appended to the log. -/
inductive Call where
  | TreeNew (cw : String)
  | CreateWindowLeft (name : String)
  | CreateWindowRight (path : String)
  | Focus (w : Window)
  | WindowSetOption (w : Window)
  | SetWidth (w : Window) (width : Int)
  | WindowOpen (w : Window) (path : String)
  | WindowClose (w : Window)
  | BufferSetOption (b : Buffer)
  | SetFileType (b : Buffer) (fileType : String)
  | Write (b : Buffer) (lines : List String)
  | SetCurrentCursor (b : Buffer) (x y : Int)
  | InputString (prompt default : String) (c : Completion)
  | InputStrings (prompt : String) (defaults : List String) (c : Completion)
  | InputBool (prompt : String)
  | Printf (text : String)
  | SetRegisterYank (text : String)
  | SetCurrentDirectory (dir : String)
  | TreeCall (t : Tree) (op : TreeOp)
deriving DecidableEq, Repr

/-- The type of the value a call returns besides its error. -/
@[reducible] def Call.Resp : Call → Type
  | .TreeNew _ => Tree
  | .CreateWindowLeft _ => Window
  | .CreateWindowRight _ => Window
  | .InputString _ _ _ => String
  | .InputStrings _ _ _ => List String
  | .InputBool _ => Bool
  | _ => Unit

/-- The host state together with the log of the calls made so far. -/
structure World (H : Type) where
  host : H
  log : List Call
deriving Repr

/-- A computation against the host: it returns a value or an error, and the world
reached either way (the effects made before an error are kept). -/
def M (H : Type) (α : Type) : Type := World H → Except Err α × World H

namespace M

variable {H : Type} {α β : Type}

def pure (a : α) : M H α := fun w => (.ok a, w)

def bind (m : M H α) (k : α → M H β) : M H β := fun w =>
  match m w with
  | (.ok a, w') => k a w'
  | (.error e, w') => (.error e, w')

instance : Monad (M H) where
  pure := M.pure
  bind := M.bind

/-- Go `return ..., err` with a non-nil error. -/
def fail (e : Err) : M H α := fun w => (.error e, w)

/-- A host query: the answer depends on the host state, which is left as it is. -/
def query (q : H → Except Err α) : M H α := fun w => (q w.host, w)

end M

/-- The callbacks `finder.go` hands to each method of the tree model, in the order
of the arguments.  The constructor of a method has exactly the parameters of the
call in `finder.go`. -/
inductive TreeArgs (H : Type) where
  | Open (render : List String → M H Unit)
  | CD (input : M H String) (render : List String → M H Unit)
  | Root (render : List String → M H Unit)
  | Home (render : List String → M H Unit)
  | Trash (render : List String → M H Unit)
  | Project (render : List String → M H Unit)
  | Up (cursor : M H Int) (render : List String → M H Unit)
  | Down (cursor : M H Int) (openFile : String → M H Unit) (render : List String → M H Unit)
  | Select (cursor : M H Int) (setCursor : Int → M H Unit) (render : List String → M H Unit)
  | ReverseSelected (render : List String → M H Unit)
  | Toggle (cursor : M H Int) (render : List String → M H Unit)
  | ToggleRec (cursor : M H Int) (render : List String → M H Unit)
  | CreateDir (cursor : M H Int) (input : M H (List String)) (render : List String → M H Unit)
  | CreateFile (cursor : M H Int) (input : M H (List String)) (render : List String → M H Unit)
  | Rename (cursor : M H Int) (inputOne : Operator → M H String)
      (inputAll : Operators → M H (List String)) (cancel : M H Unit)
      (render : List String → M H Unit)
  | Move (cursor : M H Int) (input : Operators → M H String) (cancel : M H Unit)
      (render : List String → M H Unit)
  | OpenExternally (cursor : M H Int) (render : List String → M H Unit)
  | OpenDirExternally (cursor : M H Int) (render : List String → M H Unit)
  | Remove (cursor : M H Int) (confirm : Operators → M H Bool) (cancel : M H Unit)
      (render : List String → M H Unit)
  | Restore (cursor : M H Int) (confirm : Operators → M H Bool) (cancel : M H Unit)
      (render : List String → M H Unit)
  | RemovePermanently (cursor : M H Int) (confirm : Operators → M H Bool) (cancel : M H Unit)
      (render : List String → M H Unit)
  | Copy (cursor : M H Int)
  | CopiedList (show_ : Operators → M H Unit)
  | Paste (cursor : M H Int) (render : List String → M H Unit)
  | Yank (cursor : M H Int) (yank : String → M H Unit)

/-- The method a set of arguments belongs to. -/
def TreeArgs.op {H : Type} : TreeArgs H → TreeOp
  | .Open _ => .Open
  | .CD _ _ => .CD
  | .Root _ => .Root
  | .Home _ => .Home
  | .Trash _ => .Trash
  | .Project _ => .Project
  | .Up _ _ => .Up
  | .Down _ _ _ => .Down
  | .Select _ _ _ => .Select
  | .ReverseSelected _ => .ReverseSelected
  | .Toggle _ _ => .Toggle
  | .ToggleRec _ _ => .ToggleRec
  | .CreateDir _ _ _ => .CreateDir
  | .CreateFile _ _ _ => .CreateFile
  | .Rename _ _ _ _ _ => .Rename
  | .Move _ _ _ _ => .Move
  | .OpenExternally _ _ => .OpenExternally
  | .OpenDirExternally _ _ => .OpenDirExternally
  | .Remove _ _ _ _ => .Remove
  | .Restore _ _ _ _ => .Restore
  | .RemovePermanently _ _ _ _ => .RemovePermanently
  | .Copy _ => .Copy
  | .CopiedList _ => .CopiedList
  | .Paste _ _ => .Paste
  | .Yank _ _ => .Yank

/-- The cancellation-notice callback among the arguments of a tree method, if the
method is handed one. -/
def TreeArgs.cancel? {H : Type} : TreeArgs H → Option (M H Unit)
  | .Rename _ _ _ c _ => some c
  | .Move _ _ c _ => some c
  | .Remove _ _ c _ => some c
  | .Restore _ _ c _ => some c
  | .RemovePermanently _ _ c _ => some c
  | _ => none

/-- The destination prompt among the arguments of a tree method: the second
argument of `tree.Move`. -/
def TreeArgs.destination? {H : Type} : TreeArgs H → Option (Operators → M H String)
  | .Move _ input _ _ => some input
  | _ => none

/-- The confirmation prompt among the arguments of a tree method: the second
argument of `tree.Remove`, `tree.Restore` and `tree.RemovePermanently`. -/
def TreeArgs.confirm? {H : Type} : TreeArgs H → Option (Operators → M H Bool)
  | .Remove _ confirm _ _ => some confirm
  | .Restore _ confirm _ _ => some confirm
  | .RemovePermanently _ confirm _ _ => some confirm
  | _ => none

/-- The collaborators of the package: the editor behind go-nvim, the tree model of
go-tree and `filepath.Join`.  Queries read the host state; `exec` performs a call
and `tree` runs a method of the tree model with the callbacks it is handed. -/
structure Host (H : Type) where
  Join : String → String → String
  NearestDirectory : H → String
  VarString : H → String → Except Err String
  VarInt : H → String → Except Err Int
  CurrentDirectory : H → Except Err String
  Windows : H → Except Err (List Window)
  Buffers : H → Except Err (List Buffer)
  WindowBuffer : H → Window → Except Err Buffer
  Name : H → Buffer → Except Err String
  Focused : H → Buffer → Except Err Bool
  FileType : H → Buffer → Except Err String
  CurrentCursor : H → Buffer → Except Err (Int × Int)
  exec : H → (c : Call) → Except Err c.Resp × H
  tree : Tree → TreeArgs H → M H Unit

variable {H : Type}

/-- Make a host call: the call is logged, then performed. -/
def call (host : Host H) (c : Call) : M H c.Resp := fun w =>
  match host.exec w.host c with
  | (r, h') => (r, { host := h', log := w.log ++ [c] })

/-- Invoke a method of the tree model `t`: the invocation is logged, then the tree
model runs with the callbacks. -/
def treeCall (host : Host H) (t : Tree) (args : TreeArgs H) : M H Unit := fun w =>
  host.tree t args { host := w.host, log := w.log ++ [Call.TreeCall t args.op] }

/-! ## finder.go -/

def ConfigBufferName : String := "finder_buffer_name"
def ConfigFileType : String := "finder_file_type"
def ConfigWidth : String := "finder_width"
def DefaultBufferName : String := "finder"
def DefaultFileType : String := "finder"
def DefaultWidth : Int := 30

/-- The struct `Finder`.  `addr` is the address of the allocation `&Finder{...}`;
the field `nvim` is the host parameter. -/
structure Finder where
  addr : Nat
  bufferName : String
  fileType : String
  width : Int
  tree : Tree
deriving DecidableEq, Repr

namespace Finder

/-- The loop of the method `Windows`: it keeps the windows whose buffer is named
`f.bufferName`.  A failing `w.Buffer()` fails the lookup; a failing `b.Name()` skips
the window. -/
def windowsLoop (host : Host H) (f : Finder) (h : H) : List Window → Except Err (List Window)
  | [] => .ok []
  | w :: ws =>
    match host.WindowBuffer h w with
    | .error e => .error e
    | .ok b =>
      match host.Name h b with
      | .error _ => windowsLoop host f h ws
      | .ok n =>
        if n ≠ f.bufferName then windowsLoop host f h ws
        else
          match windowsLoop host f h ws with
          | .error e => .error e
          | .ok res => .ok (w :: res)

/-- The method `Windows`. -/
def Windows (host : Host H) (f : Finder) (h : H) : Except Err (List Window) :=
  match host.Windows h with
  | .error e => .error e
  | .ok ws => windowsLoop host f h ws

/-- The method `Closed`. -/
def Closed (host : Host H) (f : Finder) (h : H) : Bool :=
  match f.Windows host h with
  | .error _ => false
  | .ok ws => ws.length == 0

/-- The loop of the method `Buffer`.  A failing `b.Name()` skips the buffer; a
failing `b.Focused()` fails the lookup. -/
def bufferLoop (host : Host H) (f : Finder) (h : H) : List Buffer → Except Err Buffer
  | [] => .error "finder buffer not found"
  | b :: bs =>
    match host.Name h b with
    | .error _ => bufferLoop host f h bs
    | .ok n =>
      if n ≠ f.bufferName then bufferLoop host f h bs
      else
        match host.Focused h b with
        | .error e => .error e
        | .ok focused => if focused then .ok b else bufferLoop host f h bs

/-- The method `Buffer`: the first focused buffer named `f.bufferName`. -/
def Buffer (host : Host H) (f : Finder) (h : H) : Except Err Buffer :=
  match host.Buffers h with
  | .error e => .error e
  | .ok bs => bufferLoop host f h bs

/-- The method `Cursor`: the row `p.Y()` of the cursor. -/
def Cursor (host : Host H) (f : Finder) : M H Int := do
  let b ← M.query (f.Buffer host)
  let p ← M.query (fun h => host.CurrentCursor h b)
  pure p.2

/-- The method `SetCursor`: the cursor keeps its column and takes the row `at`. -/
def SetCursor (host : Host H) (f : Finder) (at_ : Int) : M H Unit := do
  let b ← M.query (f.Buffer host)
  let p ← M.query (fun h => host.CurrentCursor h b)
  call host (.SetCurrentCursor b p.1 at_)

def Render (host : Host H) (f : Finder) (lines : List String) : M H Unit := do
  let b ← M.query (f.Buffer host)
  call host (.Write b lines)

/-- A loop `for _, w := range ws { if err := g(w); err != nil { return err } }`. -/
def eachWindow (g : Window → M H Unit) : List Window → M H Unit
  | [] => pure ()
  | w :: ws => do
    g w
    eachWindow g ws

def ResetWindowWidth (host : Host H) (f : Finder) : M H Unit := do
  let ws ← M.query (f.Windows host)
  eachWindow (fun w => call host (.SetWidth w f.width)) ws

/-- The loop of `OpenFile`; `rest` is the code after the loop. -/
def openFileLoop (host : Host H) (f : Finder) (path : String) (rest : M H Unit) :
    List Window → M H Unit
  | [] => rest
  | w :: ws => do
    let b ← M.query (fun h => host.WindowBuffer h w)
    let ft ← M.query (fun h => host.FileType h b)
    if ft ≠ f.fileType then do
      call host (.WindowOpen w path)
      call host (.Focus w)
    else
      openFileLoop host f path rest ws

/-- The method `OpenFile`; `path` is `file.Path()`. -/
def OpenFile (host : Host H) (f : Finder) (path : String) : M H Unit := do
  let ws ← M.query host.Windows
  openFileLoop host f path (do
    let w ← call host (.CreateWindowRight path)
    f.ResetWindowWidth host
    call host (.Focus w)) ws

def RegisterYank (host : Host H) (_f : Finder) (text : String) : M H Unit :=
  call host (.SetRegisterYank text)

/-- The method `Close`. -/
def Close (host : Host H) (f : Finder) : M H Unit := do
  let ws ← M.query (f.Windows host)
  eachWindow (fun w => call host (.WindowClose w)) ws

end Finder

/-- The block of `New` that reads the base name of the buffer: the variable
`finder_buffer_name`, or the default when it is unset or empty. -/
def configBufferName (host : Host H) (h : H) : String :=
  match host.VarString h ConfigBufferName with
  | .error _ => DefaultBufferName
  | .ok s => if s = "" then DefaultBufferName else s

/-- The block of `New` that reads the file type. -/
def configFileType (host : Host H) (h : H) : String :=
  match host.VarString h ConfigFileType with
  | .error _ => DefaultFileType
  | .ok s => if s = "" then DefaultFileType else s

/-- The block of `New` that reads the width. -/
def configWidth (host : Host H) (h : H) : Int :=
  match host.VarInt h ConfigWidth with
  | .error _ => DefaultWidth
  | .ok n => if n = 0 then DefaultWidth else n

/-- The identifier of a pane: `filepath.Join(cw, fmt.Sprintf("%s-%d", bufferName, index))`. -/
def identifier (host : Host H) (cw bufferName : String) (index : Nat) : String :=
  host.Join cw (bufferName ++ "-" ++ toString index)

/-- The function `New`.  `addr` is the address of the allocated `Finder`; the
configuration is read before the host is changed. -/
def New (host : Host H) (addr : Nat) (index : Nat) : M H Finder := fun w0 =>
  let cw := host.NearestDirectory w0.host
  let bufferName := configBufferName host w0.host
  let fileType := configFileType host w0.host
  let width := configWidth host w0.host
  (do
    let t ← call host (.TreeNew cw)
    let f : Finder :=
      { addr := addr
        bufferName := identifier host cw bufferName index
        fileType := fileType
        width := width
        tree := t }
    let w ← call host (.CreateWindowLeft f.bufferName)
    call host (.Focus w)
    call host (.WindowSetOption w)
    call host (.SetWidth w f.width)
    let b ← M.query (fun h => host.WindowBuffer h w)
    call host (.BufferSetOption b)
    call host (.SetFileType b f.fileType)
    treeCall host f.tree (.Open (f.Render host))
    pure f) w0

namespace Finder

/-- The closure handed to `tree.CD`. -/
def cdInput (host : Host H) (_f : Finder) : M H String := do
  let dir ← call host (.InputString "Enter the destination directory" "" .Dir)
  call host (.SetCurrentDirectory dir)
  let dir ← M.query host.CurrentDirectory
  pure dir

def CD (host : Host H) (f : Finder) : M H Unit :=
  treeCall host f.tree (.CD (f.cdInput host) (f.Render host))

def Root (host : Host H) (f : Finder) : M H Unit :=
  treeCall host f.tree (.Root (f.Render host))

def Home (host : Host H) (f : Finder) : M H Unit :=
  treeCall host f.tree (.Home (f.Render host))

def Trash (host : Host H) (f : Finder) : M H Unit :=
  treeCall host f.tree (.Trash (f.Render host))

def Project (host : Host H) (f : Finder) : M H Unit :=
  treeCall host f.tree (.Project (f.Render host))

def Up (host : Host H) (f : Finder) : M H Unit :=
  treeCall host f.tree (.Up (f.Cursor host) (f.Render host))

def Down (host : Host H) (f : Finder) : M H Unit :=
  treeCall host f.tree (.Down (f.Cursor host) (f.OpenFile host) (f.Render host))

def Select (host : Host H) (f : Finder) : M H Unit :=
  treeCall host f.tree (.Select (f.Cursor host) (f.SetCursor host) (f.Render host))

def ReverseSelected (host : Host H) (f : Finder) : M H Unit :=
  treeCall host f.tree (.ReverseSelected (f.Render host))

def Toggle (host : Host H) (f : Finder) : M H Unit :=
  treeCall host f.tree (.Toggle (f.Cursor host) (f.Render host))

def ToggleRec (host : Host H) (f : Finder) : M H Unit :=
  treeCall host f.tree (.ToggleRec (f.Cursor host) (f.Render host))

/-- The arguments `CreateDir` hands to `tree.CreateDir`. -/
def createDirArgs (host : Host H) (f : Finder) : TreeArgs H :=
  .CreateDir (f.Cursor host)
    (call host (.InputStrings "Enter the directory names to create" [] .None))
    (f.Render host)

def CreateDir (host : Host H) (f : Finder) : M H Unit :=
  treeCall host f.tree (f.createDirArgs host)

/-- The arguments `CreateFile` hands to `tree.CreateFile`. -/
def createFileArgs (host : Host H) (f : Finder) : TreeArgs H :=
  .CreateFile (f.Cursor host)
    (call host (.InputStrings "Enter the file names to create" [] .None))
    (f.Render host)

def CreateFile (host : Host H) (f : Finder) : M H Unit :=
  treeCall host f.tree (f.createFileArgs host)

/-- The arguments `Rename` hands to `tree.Rename`. -/
def renameArgs (host : Host H) (f : Finder) : TreeArgs H :=
  .Rename (f.Cursor host)
    (fun o =>
      call host (.InputString ("Rename the " ++ o.TypeOf ++ " \x27" ++ o.Name ++ "\x27 to")
        o.Name .None))
    (fun os => call host (.InputStrings "Rename the objects to" (os.map (·.Name)) .None))
    (call host (.Printf "Renaming has been canceled.\n"))
    (f.Render host)

def Rename (host : Host H) (f : Finder) : M H Unit :=
  treeCall host f.tree (f.renameArgs host)

/-- The prompt closure handed to `tree.Move`. -/
def moveInput (host : Host H) (_f : Finder) (os : Operators) : M H String :=
  match os with
  | [o] =>
    call host (.InputString
      ("Enter the destination to move the " ++ o.TypeOf ++ " \x27" ++ o.Name ++ "\x27") ""
      .Dir)
  | _ => call host (.InputString "Enter the destination to move the selected files" "" .Dir)

/-- The arguments `Move` hands to `tree.Move`. -/
def moveArgs (host : Host H) (f : Finder) : TreeArgs H :=
  .Move (f.Cursor host) (f.moveInput host)
    (call host (.Printf "Moving has been canceled.\n"))
    (f.Render host)

def Move (host : Host H) (f : Finder) : M H Unit :=
  treeCall host f.tree (f.moveArgs host)

def OpenExternally (host : Host H) (f : Finder) : M H Unit :=
  treeCall host f.tree (.OpenExternally (f.Cursor host) (f.Render host))

def OpenDirExternally (host : Host H) (f : Finder) : M H Unit :=
  treeCall host f.tree (.OpenDirExternally (f.Cursor host) (f.Render host))

/-- The confirmation closure handed to `tree.Remove`. -/
def removeConfirm (host : Host H) (_f : Finder) (os : Operators) : M H Bool :=
  match os with
  | [o] =>
    call host (.InputBool
      ("Are you sure you want to remove the " ++ o.TypeOf ++ " \x27" ++ o.Name ++ "\x27?"))
  | _ => call host (.InputBool "Are you sure you want to remove the selected objects?")

/-- The arguments `Remove` hands to `tree.Remove`. -/
def removeArgs (host : Host H) (f : Finder) : TreeArgs H :=
  .Remove (f.Cursor host) (f.removeConfirm host)
    (call host (.Printf "Remove has been canceled.\n"))
    (f.Render host)

def Remove (host : Host H) (f : Finder) : M H Unit :=
  treeCall host f.tree (f.removeArgs host)

/-- The confirmation closure handed to `tree.Restore`. -/
def restoreConfirm (host : Host H) (_f : Finder) (os : Operators) : M H Bool :=
  match os with
  | [o] =>
    call host (.InputBool
      ("Are you sure you want to restore the " ++ o.TypeOf ++ " \x27" ++ o.OriginalPath
        ++ "\x27?"))
  | _ => call host (.InputBool "Are you sure you want to restore the selected objects?")

/-- The arguments `Restore` hands to `tree.Restore`. -/
def restoreArgs (host : Host H) (f : Finder) : TreeArgs H :=
  .Restore (f.Cursor host) (f.restoreConfirm host)
    (call host (.Printf "Remove has been canceled.\n"))
    (f.Render host)

def Restore (host : Host H) (f : Finder) : M H Unit :=
  treeCall host f.tree (f.restoreArgs host)

/-- The confirmation closure handed to `tree.RemovePermanently`. -/
def removePermanentlyConfirm (host : Host H) (_f : Finder) (os : Operators) : M H Bool :=
  match os with
  | [o] =>
    call host (.InputBool
      ("Are you sure you want to permanently remove the " ++ o.TypeOf ++ " \x27" ++ o.Name
        ++ "\x27?"))
  | _ => call host (.InputBool "Are you sure you want to permanently remove the selected objects?")

/-- The arguments `RemovePermanently` hands to `tree.RemovePermanently`. -/
def removePermanentlyArgs (host : Host H) (f : Finder) : TreeArgs H :=
  .RemovePermanently (f.Cursor host) (f.removePermanentlyConfirm host)
    (call host (.Printf "Remove permanently has been canceled.\n"))
    (f.Render host)

def RemovePermanently (host : Host H) (f : Finder) : M H Unit :=
  treeCall host f.tree (f.removePermanentlyArgs host)

def Copy (host : Host H) (f : Finder) : M H Unit :=
  treeCall host f.tree (.Copy (f.Cursor host))

def CopiedList (host : Host H) (f : Finder) : M H Unit :=
  treeCall host f.tree
    (.CopiedList (fun os =>
      call host (.Printf (String.intercalate "\n" (os.map (·.Path)) ++ "\n"))))

def Paste (host : Host H) (f : Finder) : M H Unit :=
  treeCall host f.tree (.Paste (f.Cursor host) (f.Render host))

def Yank (host : Host H) (f : Finder) : M H Unit :=
  treeCall host f.tree (.Yank (f.Cursor host) (f.RegisterYank host))

end Finder

/-! ## static.go -/

/-- The package state: the variable `finders` and the next free address of the
allocator, with the world of the host.  (The variable `context` is part of the
host state.) -/
structure Session (H : Type) where
  finders : List Finder
  nextAddr : Nat
  world : World H
deriving Repr

/-- The result of a command: its error, if any, and the session it leaves. -/
abbrev Outcome (H : Type) := Except Err Unit × Session H

/-- Run a method of a pane in the world of the session. -/
def Session.run (s : Session H) (m : M H Unit) : Outcome H :=
  match m s.world with
  | (r, w') => (r, { s with world := w' })

/-- The loop of `CurrentFinder`: the first pane whose `Buffer()` returns no error. -/
def currentFinderLoop (host : Host H) (h : H) : List Finder → Option Finder
  | [] => none
  | f :: fs =>
    match f.Buffer host h with
    | .error _ => currentFinderLoop host h fs
    | .ok _ => some f

/-- The function `CurrentFinder`, with the session it leaves. -/
def CurrentFinder (host : Host H) (s : Session H) : Option Finder × Session H :=
  (currentFinderLoop host s.world.host s.finders, s)

/-- The loop of `Closed`, with the variable `closed`. -/
def closedLoop (host : Host H) (h : H) : List Finder → Bool → Bool
  | [], closed => closed
  | f :: fs, closed =>
    let c := f.Closed host h
    if !c then false else closedLoop host h fs (closed && c)

/-- The function `Closed`, with the session it leaves. -/
def Closed (host : Host H) (s : Session H) : Bool × Session H :=
  if s.finders.length = 0 then (true, s)
  else (closedLoop host s.world.host s.finders true, s)

/-- The function `OpenPane`. -/
def OpenPane (host : Host H) (s : Session H) : Outcome H :=
  match New host s.nextAddr s.finders.length s.world with
  | (.error e, w') => (.error e, { s with nextAddr := s.nextAddr + 1, world := w' })
  | (.ok f, w') =>
    (.ok (), { finders := s.finders ++ [f], nextAddr := s.nextAddr + 1, world := w' })

/-- A loop `for _, f := range finders { if err := f.Close(); err != nil { return err } }`. -/
def closeEach (host : Host H) : List Finder → M H Unit
  | [] => pure ()
  | f :: fs => do
    f.Close host
    closeEach host fs

/-- The function `TogglePane`. -/
def TogglePane (host : Host H) (s : Session H) : Outcome H :=
  match Closed host s with
  | (true, s) => OpenPane host { s with finders := [] }
  | (false, s) =>
    match closeEach host s.finders s.world with
    | (.error e, w') => (.error e, { s with world := w' })
    | (.ok _, w') => (.ok (), { s with finders := [], world := w' })

/-- The function `ClosePane`. -/
def ClosePane (host : Host H) (s : Session H) : Outcome H :=
  match CurrentFinder host s with
  | (none, s) => (.ok (), s)
  | (some f, s) =>
    match f.Close host s.world with
    | (.error e, w') => (.error e, { s with world := w' })
    | (.ok _, w') =>
      (.ok (), { s with finders := s.finders.filter (fun finder => finder.addr ≠ f.addr),
                        world := w' })

/-- The function `CloseAllPanes`. -/
def CloseAllPanes (host : Host H) (s : Session H) : Outcome H :=
  match closeEach host s.finders s.world with
  | (.error e, w') => (.error e, { s with world := w' })
  | (.ok _, w') => (.ok (), { s with finders := [], world := w' })

def GoTo (host : Host H) (s : Session H) : Outcome H :=
  match CurrentFinder host s with
  | (none, s) => (.ok (), s)
  | (some f, s) => if f.Closed host s.world.host then (.ok (), s) else s.run (f.CD host)

def GoToRoot (host : Host H) (s : Session H) : Outcome H :=
  match CurrentFinder host s with
  | (none, s) => (.ok (), s)
  | (some f, s) => if f.Closed host s.world.host then (.ok (), s) else s.run (f.Root host)

def GoToHome (host : Host H) (s : Session H) : Outcome H :=
  match CurrentFinder host s with
  | (none, s) => (.ok (), s)
  | (some f, s) => if f.Closed host s.world.host then (.ok (), s) else s.run (f.Home host)

def GoToTrash (host : Host H) (s : Session H) : Outcome H :=
  match CurrentFinder host s with
  | (none, s) => (.ok (), s)
  | (some f, s) => if f.Closed host s.world.host then (.ok (), s) else s.run (f.Trash host)

def GoToProject (host : Host H) (s : Session H) : Outcome H :=
  match CurrentFinder host s with
  | (none, s) => (.ok (), s)
  | (some f, s) => if f.Closed host s.world.host then (.ok (), s) else s.run (f.Project host)

def GoToUpper (host : Host H) (s : Session H) : Outcome H :=
  match CurrentFinder host s with
  | (none, s) => (.ok (), s)
  | (some f, s) => if f.Closed host s.world.host then (.ok (), s) else s.run (f.Up host)

def GoToLowerOrOpen (host : Host H) (s : Session H) : Outcome H :=
  match CurrentFinder host s with
  | (none, s) => (.ok (), s)
  | (some f, s) => if f.Closed host s.world.host then (.ok (), s) else s.run (f.Down host)

def Select (host : Host H) (s : Session H) : Outcome H :=
  match CurrentFinder host s with
  | (none, s) => (.ok (), s)
  | (some f, s) => if f.Closed host s.world.host then (.ok (), s) else s.run (f.Select host)

def ReverseSelected (host : Host H) (s : Session H) : Outcome H :=
  match CurrentFinder host s with
  | (none, s) => (.ok (), s)
  | (some f, s) => if f.Closed host s.world.host then (.ok (), s) else s.run (f.ReverseSelected host)

def Toggle (host : Host H) (s : Session H) : Outcome H :=
  match CurrentFinder host s with
  | (none, s) => (.ok (), s)
  | (some f, s) => if f.Closed host s.world.host then (.ok (), s) else s.run (f.Toggle host)

def ToggleRecursively (host : Host H) (s : Session H) : Outcome H :=
  match CurrentFinder host s with
  | (none, s) => (.ok (), s)
  | (some f, s) => if f.Closed host s.world.host then (.ok (), s) else s.run (f.ToggleRec host)

def CreateDir (host : Host H) (s : Session H) : Outcome H :=
  match CurrentFinder host s with
  | (none, s) => (.ok (), s)
  | (some f, s) => if f.Closed host s.world.host then (.ok (), s) else s.run (f.CreateDir host)

def CreateFile (host : Host H) (s : Session H) : Outcome H :=
  match CurrentFinder host s with
  | (none, s) => (.ok (), s)
  | (some f, s) => if f.Closed host s.world.host then (.ok (), s) else s.run (f.CreateFile host)

def Rename (host : Host H) (s : Session H) : Outcome H :=
  match CurrentFinder host s with
  | (none, s) => (.ok (), s)
  | (some f, s) => if f.Closed host s.world.host then (.ok (), s) else s.run (f.Rename host)

def Move (host : Host H) (s : Session H) : Outcome H :=
  match CurrentFinder host s with
  | (none, s) => (.ok (), s)
  | (some f, s) => if f.Closed host s.world.host then (.ok (), s) else s.run (f.Move host)

def OpenExternally (host : Host H) (s : Session H) : Outcome H :=
  match CurrentFinder host s with
  | (none, s) => (.ok (), s)
  | (some f, s) => if f.Closed host s.world.host then (.ok (), s) else s.run (f.OpenExternally host)

def OpenDirExternally (host : Host H) (s : Session H) : Outcome H :=
  match CurrentFinder host s with
  | (none, s) => (.ok (), s)
  | (some f, s) => if f.Closed host s.world.host then (.ok (), s) else s.run (f.OpenDirExternally host)

def Remove (host : Host H) (s : Session H) : Outcome H :=
  match CurrentFinder host s with
  | (none, s) => (.ok (), s)
  | (some f, s) => if f.Closed host s.world.host then (.ok (), s) else s.run (f.Remove host)

def RemovePermanently (host : Host H) (s : Session H) : Outcome H :=
  match CurrentFinder host s with
  | (none, s) => (.ok (), s)
  | (some f, s) => if f.Closed host s.world.host then (.ok (), s) else s.run (f.RemovePermanently host)

def Restore (host : Host H) (s : Session H) : Outcome H :=
  match CurrentFinder host s with
  | (none, s) => (.ok (), s)
  | (some f, s) => if f.Closed host s.world.host then (.ok (), s) else s.run (f.Restore host)

def Copy (host : Host H) (s : Session H) : Outcome H :=
  match CurrentFinder host s with
  | (none, s) => (.ok (), s)
  | (some f, s) => if f.Closed host s.world.host then (.ok (), s) else s.run (f.Copy host)

def ShowCopiedList (host : Host H) (s : Session H) : Outcome H :=
  match CurrentFinder host s with
  | (none, s) => (.ok (), s)
  | (some f, s) => if f.Closed host s.world.host then (.ok (), s) else s.run (f.CopiedList host)

def Paste (host : Host H) (s : Session H) : Outcome H :=
  match CurrentFinder host s with
  | (none, s) => (.ok (), s)
  | (some f, s) => if f.Closed host s.world.host then (.ok (), s) else s.run (f.Paste host)

def Yank (host : Host H) (s : Session H) : Outcome H :=
  match CurrentFinder host s with
  | (none, s) => (.ok (), s)
  | (some f, s) => if f.Closed host s.world.host then (.ok (), s) else s.run (f.Yank host)

/-- The commands of `static.go` that act on the current pane. -/
inductive Command where
  | GoTo
  | GoToRoot
  | GoToHome
  | GoToTrash
  | GoToProject
  | GoToUpper
  | GoToLowerOrOpen
  | Select
  | ReverseSelected
  | Toggle
  | ToggleRecursively
  | CreateDir
  | CreateFile
  | Rename
  | Move
  | OpenExternally
  | OpenDirExternally
  | Remove
  | RemovePermanently
  | Restore
  | Copy
  | ShowCopiedList
  | Paste
  | Yank
deriving DecidableEq, Repr

/-- The function of `static.go` a command names. -/
def Command.exec (host : Host H) : Command → Session H → Outcome H
  | .GoTo => NvimFinder.GoTo host
  | .GoToRoot => NvimFinder.GoToRoot host
  | .GoToHome => NvimFinder.GoToHome host
  | .GoToTrash => NvimFinder.GoToTrash host
  | .GoToProject => NvimFinder.GoToProject host
  | .GoToUpper => NvimFinder.GoToUpper host
  | .GoToLowerOrOpen => NvimFinder.GoToLowerOrOpen host
  | .Select => NvimFinder.Select host
  | .ReverseSelected => NvimFinder.ReverseSelected host
  | .Toggle => NvimFinder.Toggle host
  | .ToggleRecursively => NvimFinder.ToggleRecursively host
  | .CreateDir => NvimFinder.CreateDir host
  | .CreateFile => NvimFinder.CreateFile host
  | .Rename => NvimFinder.Rename host
  | .Move => NvimFinder.Move host
  | .OpenExternally => NvimFinder.OpenExternally host
  | .OpenDirExternally => NvimFinder.OpenDirExternally host
  | .Remove => NvimFinder.Remove host
  | .RemovePermanently => NvimFinder.RemovePermanently host
  | .Restore => NvimFinder.Restore host
  | .Copy => NvimFinder.Copy host
  | .ShowCopiedList => NvimFinder.ShowCopiedList host
  | .Paste => NvimFinder.Paste host
  | .Yank => NvimFinder.Yank host

/-- The method of `Finder` the function of a command delegates to. -/
def Command.method (host : Host H) : Command → Finder → M H Unit
  | .GoTo => fun f => f.CD host
  | .GoToRoot => fun f => f.Root host
  | .GoToHome => fun f => f.Home host
  | .GoToTrash => fun f => f.Trash host
  | .GoToProject => fun f => f.Project host
  | .GoToUpper => fun f => f.Up host
  | .GoToLowerOrOpen => fun f => f.Down host
  | .Select => fun f => f.Select host
  | .ReverseSelected => fun f => f.ReverseSelected host
  | .Toggle => fun f => f.Toggle host
  | .ToggleRecursively => fun f => f.ToggleRec host
  | .CreateDir => fun f => f.CreateDir host
  | .CreateFile => fun f => f.CreateFile host
  | .Rename => fun f => f.Rename host
  | .Move => fun f => f.Move host
  | .OpenExternally => fun f => f.OpenExternally host
  | .OpenDirExternally => fun f => f.OpenDirExternally host
  | .Remove => fun f => f.Remove host
  | .RemovePermanently => fun f => f.RemovePermanently host
  | .Restore => fun f => f.Restore host
  | .Copy => fun f => f.Copy host
  | .ShowCopiedList => fun f => f.CopiedList host
  | .Paste => fun f => f.Paste host
  | .Yank => fun f => f.Yank host

/-! ## A reference editor

A small deterministic host on which the definitions can be run: windows in
enumeration order, each showing one buffer, one focused window, and switches that
make the editor refuse a window or fail to name a buffer. -/

structure Editor where
  cwd : String
  /-- The windows in enumeration order, each with the buffer it shows. -/
  wins : List (Window × Buffer)
  /-- The buffers, each with its name and file type. -/
  bufs : List (Buffer × String × String)
  focus : Option Window
  next : Nat
  /-- The editor refuses to create a window. -/
  refuse : Bool
  /-- The buffers whose `Name()` fails. -/
  unnamed : List Buffer
deriving DecidableEq, Repr

namespace Editor

def bufferOf (e : Editor) (w : Window) : Except Err Buffer :=
  match e.wins.lookup w with
  | some b => .ok b
  | none => .error "no such window"

def nameOf (e : Editor) (b : Buffer) : Except Err String :=
  if b ∈ e.unnamed then .error "no name"
  else
    match e.bufs.lookup b with
    | some (n, _) => .ok n
    | none => .error "no such buffer"

def fileTypeOf (e : Editor) (b : Buffer) : Except Err String :=
  match e.bufs.lookup b with
  | some (_, ft) => .ok ft
  | none => .error "no such buffer"

def focusedOn (e : Editor) (b : Buffer) : Except Err Bool :=
  match e.focus with
  | none => .ok false
  | some w => .ok (e.wins.lookup w == some b)

/-- A new window showing a new buffer named `name`, on the left or on the right. -/
def create (e : Editor) (left : Bool) (name : String) : Except Err Window × Editor :=
  if e.refuse then (.error "cannot create a window", e)
  else
    (.ok e.next,
      { e with
        wins := if left then (e.next, e.next + 1) :: e.wins else e.wins ++ [(e.next, e.next + 1)]
        bufs := e.bufs ++ [(e.next + 1, name, "")]
        next := e.next + 2 })

def step (e : Editor) : (c : Call) → Except Err c.Resp × Editor
  | .TreeNew _ => (.ok e.next, { e with next := e.next + 1 })
  | .CreateWindowLeft name => e.create true name
  | .CreateWindowRight path => e.create false path
  | .Focus w => (.ok (), { e with focus := some w })
  | .WindowSetOption _ => (.ok (), e)
  | .SetWidth _ _ => (.ok (), e)
  | .WindowOpen w path =>
    (.ok (),
      { e with
        wins := e.wins.map (fun p => if p.1 = w then (w, e.next) else p)
        bufs := e.bufs ++ [(e.next, path, "")]
        next := e.next + 1 })
  | .WindowClose w =>
    (.ok (),
      { e with
        wins := e.wins.filter (fun p => p.1 ≠ w)
        focus := if e.focus = some w then none else e.focus })
  | .BufferSetOption _ => (.ok (), e)
  | .SetFileType b ft =>
    (.ok (), { e with bufs := e.bufs.map (fun p => if p.1 = b then (b, p.2.1, ft) else p) })
  | .Write _ _ => (.ok (), e)
  | .SetCurrentCursor _ _ _ => (.ok (), e)
  | .InputString _ d _ => (.ok d, e)
  | .InputStrings _ ds _ => (.ok ds, e)
  | .InputBool _ => (.ok false, e)
  | .Printf _ => (.ok (), e)
  | .SetRegisterYank _ => (.ok (), e)
  | .SetCurrentDirectory _ => (.ok (), e)
  | .TreeCall _ _ => (.ok (), e)

/-- The reference editor as a host.  No variable is set, so the defaults of the
configuration apply; the tree model renders nothing. -/
def host : Host Editor where
  Join := fun a b => a ++ "/" ++ b
  NearestDirectory := fun e => e.cwd
  VarString := fun _ _ => .error "unset"
  VarInt := fun _ _ => .error "unset"
  CurrentDirectory := fun e => .ok e.cwd
  Windows := fun e => .ok (e.wins.map (·.1))
  Buffers := fun e => .ok (e.bufs.map (·.1))
  WindowBuffer := bufferOf
  Name := nameOf
  Focused := focusedOn
  FileType := fileTypeOf
  CurrentCursor := fun _ _ => .ok (0, 0)
  exec := step
  tree := fun _ _ => pure ()

/-- An editor in directory `/w` with no window. -/
def empty : Editor :=
  { cwd := "/w", wins := [], bufs := [], focus := none, next := 0, refuse := false,
    unnamed := [] }

end Editor

/-- The session at process start: no pane. -/
def Session.init (h : H) : Session H :=
  { finders := [], nextAddr := 0, world := { host := h, log := [] } }

/-! ## Notions used to state the properties -/

/-- Every value a computation returns satisfies `P`. -/
def M.Returns {α : Type} (m : M H α) (P : α → Prop) : Prop :=
  ∀ w a w', m w = (.ok a, w') → P a

/-- The panes of the registry are distinct allocations, made before the next one. -/
def Session.WellFormed (s : Session H) : Prop :=
  (s.finders.map (·.addr)).Nodup ∧ ∀ f ∈ s.finders, f.addr < s.nextAddr

instance (s : Session H) : Decidable s.WellFormed := by
  unfold Session.WellFormed
  infer_instance

/-- The commands that prompt the user before they change the tree. -/
inductive Prompted where
  | Rename | Move | Remove | Restore | RemovePermanently | CreateDir | CreateFile
deriving DecidableEq, Repr

/-- The arguments the method of `Finder` of a prompting command hands to the tree
model. -/
def Prompted.args (host : Host H) (f : Finder) : Prompted → TreeArgs H
  | .Rename => f.renameArgs host
  | .Move => f.moveArgs host
  | .Remove => f.removeArgs host
  | .Restore => f.restoreArgs host
  | .RemovePermanently => f.removePermanentlyArgs host
  | .CreateDir => f.createDirArgs host
  | .CreateFile => f.createFileArgs host

/-- Modelled from the spec: the tree model of go-tree is not part of the sources;
what it does when the user cancels the prompt of a method is taken from the
specification: the command aborts without changing the tree model and without
rendering, and the cancellation-notice callback, when the method was handed one, runs
instead. -/
def cancelled (args : TreeArgs H) : M H Unit :=
  match args.cancel? with
  | some notice => notice
  | none => pure ()

/-- The number of notices printed among the calls of a log. -/
def notices (log : List Call) : Nat :=
  log.countP (fun c => match c with | .Printf _ => true | _ => false)

/-- The number of renders among the calls of a log. -/
def renders (log : List Call) : Nat :=
  log.countP (fun c => match c with | .Write _ _ => true | _ => false)

/-- One event of a session: a command, or a change of the host made from outside
between two commands (the user focuses or closes a window). -/
inductive Step (H : Type) where
  | OpenPane
  | ClosePane
  | Change (change : H → H)

/-- The counts of a run: the `OpenPane` calls that returned no error, the
`ClosePane` calls that returned no error, and among these the ones that had resolved
a pane. -/
structure Tally where
  opened : Nat
  closed : Nat
  removed : Nat
deriving DecidableEq, Repr

/-- Run one event and count it. -/
def Step.apply (host : Host H) : Step H → Session H × Tally → Session H × Tally
  | .OpenPane, (s, t) =>
    match NvimFinder.OpenPane host s with
    | (.ok _, s') => (s', { t with opened := t.opened + 1 })
    | (.error _, s') => (s', t)
  | .ClosePane, (s, t) =>
    match NvimFinder.ClosePane host s with
    | (.ok _, s') =>
      (s', { t with closed := t.closed + 1,
                    removed := if (CurrentFinder host s).1.isSome then t.removed + 1
                               else t.removed })
    | (.error _, s') => (s', t)
  | .Change change, (s, t) =>
    ({ s with world := { s.world with host := change s.world.host } }, t)

/-- Run the events in order. -/
def runSteps (host : Host H) : List (Step H) → Session H × Tally → Session H × Tally
  | [], st => st
  | step :: steps, st => runSteps host steps (step.apply host st)

/-- The state at process start: no pane, nothing counted. -/
def start (h : H) : Session H × Tally :=
  (Session.init h, { opened := 0, closed := 0, removed := 0 })

/-! ## Concrete panes, operands and sessions of the reference editor -/

/-- The pane of the first `OpenPane` in directory `/w`. -/
def pane0 : Finder :=
  { addr := 0, bufferName := "/w/finder-0", fileType := "finder", width := 30, tree := 0 }

/-- The pane of the second `OpenPane` in directory `/w`. -/
def pane1 : Finder :=
  { addr := 1, bufferName := "/w/finder-1", fileType := "finder", width := 30, tree := 3 }

/-- The file `a.txt`. -/
def fileA : Operator :=
  { Name := "a.txt", Path := "/w/a.txt", TypeOf := "file", OriginalPath := "/w/a.txt" }

/-- The file `b.txt`. -/
def fileB : Operator :=
  { Name := "b.txt", Path := "/w/b.txt", TypeOf := "file", OriginalPath := "/w/b.txt" }

/-- An editor with one window, whose buffer fails to give its name. -/
def Editor.unnamedWindow : Editor :=
  { cwd := "/w", wins := [(1, 2)], bufs := [(2, "/w/finder-0", "finder")], focus := some 1,
    next := 3, refuse := false, unnamed := [2] }

/-- An editor that refuses to create a window. -/
def Editor.refusing : Editor := { Editor.empty with refuse := true }

/-- The calls `New` makes in directory `/w` with the default configuration, for the
identifier `name`, the tree `t`, the window `w` and the buffer `b`. -/
def openLog (name : String) (t : Tree) (w : Window) (b : Buffer) : List Call :=
  [.TreeNew "/w", .CreateWindowLeft name, .Focus w, .WindowSetOption w, .SetWidth w 30,
    .BufferSetOption b, .SetFileType b "finder", .TreeCall t .Open]

/-- The session after one `OpenPane` in the reference editor. -/
def onePane : Session Editor :=
  { finders := [{ addr := 0, bufferName := "/w/finder-0", fileType := "finder", width := 30,
                  tree := 0 }]
    nextAddr := 1
    world :=
      { host := { cwd := "/w", wins := [(1, 2)], bufs := [(2, "/w/finder-0", "finder")],
                  focus := some 1, next := 3, refuse := false, unnamed := [] }
        log := openLog "/w/finder-0" 0 1 2 } }

/-- The session after two `OpenPane` in the reference editor: two panes, the second
one focused. -/
def twoPanes : Session Editor :=
  { finders := [{ addr := 0, bufferName := "/w/finder-0", fileType := "finder", width := 30,
                  tree := 0 },
                { addr := 1, bufferName := "/w/finder-1", fileType := "finder", width := 30,
                  tree := 3 }]
    nextAddr := 2
    world :=
      { host := { cwd := "/w", wins := [(4, 5), (1, 2)],
                  bufs := [(2, "/w/finder-0", "finder"), (5, "/w/finder-1", "finder")],
                  focus := some 4, next := 6, refuse := false, unnamed := [] }
        log := openLog "/w/finder-0" 0 1 2 ++ openLog "/w/finder-1" 3 4 5 } }

/-- The user moves the focus to the window of the first pane. -/
def focusFirstPane (e : Editor) : Editor := { e with focus := some 1 }

/-- Two panes, the first one focused. -/
def twoPanesFirstFocused : Session Editor :=
  { twoPanes with world := { twoPanes.world with host := focusFirstPane twoPanes.world.host } }

/-- The session after the first of two panes is closed by `ClosePane`. -/
def secondPaneOnly : Session Editor :=
  { finders := [{ addr := 1, bufferName := "/w/finder-1", fileType := "finder", width := 30,
                  tree := 3 }]
    nextAddr := 2
    world :=
      { host := { cwd := "/w", wins := [(4, 5)],
                  bufs := [(2, "/w/finder-0", "finder"), (5, "/w/finder-1", "finder")],
                  focus := none, next := 6, refuse := false, unnamed := [] }
        log := openLog "/w/finder-0" 0 1 2 ++ openLog "/w/finder-1" 3 4 5
          ++ [.WindowClose 1] } }

/-- The session after a pane is opened again: two panes with one identifier. -/
def sameIdentifier : Session Editor :=
  { finders := [{ addr := 1, bufferName := "/w/finder-1", fileType := "finder", width := 30,
                  tree := 3 },
                { addr := 2, bufferName := "/w/finder-1", fileType := "finder", width := 30,
                  tree := 6 }]
    nextAddr := 3
    world :=
      { host := { cwd := "/w", wins := [(7, 8), (4, 5)],
                  bufs := [(2, "/w/finder-0", "finder"), (5, "/w/finder-1", "finder"),
                           (8, "/w/finder-1", "finder")],
                  focus := some 7, next := 9, refuse := false, unnamed := [] }
        log := openLog "/w/finder-0" 0 1 2 ++ openLog "/w/finder-1" 3 4 5
          ++ [.WindowClose 1] ++ openLog "/w/finder-1" 6 7 8 } }

/-! ## Lemmas on the monad and on the lookups -/

theorem M.bind_apply {α β : Type} (m : M H α) (k : α → M H β) (w : World H) :
    (m >>= k) w =
      match m w with
      | (.ok a, w') => k a w'
      | (.error e, w') => (.error e, w') := rfl

theorem M.pure_apply {α : Type} (a : α) (w : World H) :
    (Pure.pure a : M H α) w = (.ok a, w) := rfl

theorem M.query_apply {α : Type} (q : H → Except Err α) (w : World H) :
    M.query q w = (q w.host, w) := rfl

theorem isOk_iff {ε α : Type} (r : Except ε α) : r.isOk = true ↔ ∃ a, r = .ok a := by
  cases r <;> simp [Except.isOk, Except.toBool]

theorem currentFinderLoop_eq_find (host : Host H) (h : H) (fs : List Finder) :
    currentFinderLoop host h fs = fs.find? (fun f => (f.Buffer host h).isOk) := by
  induction fs with
  | nil => rfl
  | cons f fs ih =>
    simp only [currentFinderLoop, List.find?]
    cases hb : f.Buffer host h <;> simp [Except.isOk, Except.toBool, ih]

/-- A pane resolved by the loop of `CurrentFinder` is in the registry, its buffer
lookup succeeds, and the lookup fails for every pane before it. -/
theorem currentFinderLoop_some (host : Host H) (h : H) (fs : List Finder) (f : Finder)
    (hf : currentFinderLoop host h fs = some f) :
    ∃ l1 l2, fs = l1 ++ f :: l2 ∧ (∃ b, f.Buffer host h = .ok b) ∧
      ∀ g ∈ l1, ∀ b, g.Buffer host h ≠ .ok b := by
  rw [currentFinderLoop_eq_find, List.find?_eq_some] at hf
  obtain ⟨hok, l1, l2, hl, hbefore⟩ := hf
  refine ⟨l1, l2, hl, (isOk_iff _).1 hok, ?_⟩
  intro g hg b hb
  have := hbefore g hg
  simp [hb, Except.isOk, Except.toBool] at this

theorem currentFinderLoop_none (host : Host H) (h : H) (fs : List Finder) :
    currentFinderLoop host h fs = none ↔ ∀ f ∈ fs, ∀ b, f.Buffer host h ≠ .ok b := by
  rw [currentFinderLoop_eq_find, List.find?_eq_none]
  constructor
  · intro hall f hf b hb
    have := hall f hf
    simp [hb, Except.isOk, Except.toBool] at this
  · intro hall f hf hok
    obtain ⟨b, hb⟩ := (isOk_iff _).1 hok
    exact hall f hf b hb

/-- A buffer found by the loop of `Finder.Buffer` is one of the listed buffers, is
named with the identifier of the pane, and is focused. -/
theorem bufferLoop_ok (host : Host H) (f : Finder) (h : H) (bs : List Buffer) (b : Buffer)
    (hb : Finder.bufferLoop host f h bs = .ok b) :
    b ∈ bs ∧ host.Name h b = .ok f.bufferName ∧ host.Focused h b = .ok true := by
  induction bs with
  | nil => simp [Finder.bufferLoop] at hb
  | cons c cs ih =>
    simp only [Finder.bufferLoop] at hb
    split at hb
    · have := ih hb; simp [this]
    · rename_i n hn
      split at hb
      · have := ih hb; simp [this]
      · rename_i hne
        split at hb
        · simp at hb
        · rename_i focused hf
          split at hb
          · rename_i hfoc
            injection hb with hb
            subst hb
            simp only [ne_eq, Decidable.not_not] at hne
            subst hne hfoc
            simp [hn, hf]
          · have := ih hb; simp [this]

/-- When no `Focused()` call fails, the loop of `Finder.Buffer` succeeds exactly when
one of the buffers is named with the identifier of the pane and focused. -/
theorem bufferLoop_ok_iff (host : Host H) (f : Finder) (h : H) (bs : List Buffer)
    (hfoc : ∀ b ∈ bs, ∀ e, host.Focused h b ≠ .error e) :
    (∃ b, Finder.bufferLoop host f h bs = .ok b) ↔
      ∃ b ∈ bs, host.Name h b = .ok f.bufferName ∧ host.Focused h b = .ok true := by
  constructor
  · rintro ⟨b, hb⟩
    exact ⟨b, bufferLoop_ok host f h bs b hb⟩
  · rintro ⟨b, hb, hn, hf⟩
    induction bs with
    | nil => simp at hb
    | cons c cs ih =>
      have hfoc' : ∀ b ∈ cs, ∀ e, host.Focused h b ≠ .error e :=
        fun b hb => hfoc b (List.mem_cons_of_mem _ hb)
      simp only [Finder.bufferLoop]
      cases hcn : host.Name h c with
      | error e =>
        rcases List.mem_cons.1 hb with rfl | hb
        · rw [hn] at hcn; cases hcn
        · exact ih hfoc' hb
      | ok n =>
        by_cases hne : n = f.bufferName
        · subst hne
          simp only [ne_eq, not_true_eq_false, if_false]
          cases hcf : host.Focused h c with
          | error e => exact absurd hcf (hfoc c (List.mem_cons_self _ _) e)
          | ok v =>
            cases v with
            | true => exact ⟨c, by simp⟩
            | false =>
              rcases List.mem_cons.1 hb with rfl | hb
              · rw [hf] at hcf; cases hcf
              · simpa using ih hfoc' hb
        · rcases List.mem_cons.1 hb with rfl | hb
          · rw [hn] at hcn
            cases hcn
            exact absurd rfl hne
          · simpa [hne] using ih hfoc' hb

theorem Buffer_ok (host : Host H) (f : Finder) (h : H) (b : Buffer)
    (hb : f.Buffer host h = .ok b) :
    (∃ bs, host.Buffers h = .ok bs ∧ b ∈ bs) ∧ host.Name h b = .ok f.bufferName ∧
      host.Focused h b = .ok true := by
  unfold Finder.Buffer at hb
  split at hb
  · simp at hb
  · rename_i bs hbs
    have := bufferLoop_ok host f h bs b hb
    exact ⟨⟨bs, hbs, this.1⟩, this.2⟩

/-- The loop of `Finder.Windows` finds no window exactly when every `w.Buffer()`
succeeds and no buffer is named with the identifier of the pane. -/
theorem windowsLoop_nil_iff (host : Host H) (f : Finder) (h : H) (ws : List Window) :
    Finder.windowsLoop host f h ws = .ok [] ↔
      ∀ w ∈ ws, ∃ b, host.WindowBuffer h w = .ok b ∧ host.Name h b ≠ .ok f.bufferName := by
  induction ws with
  | nil => simp [Finder.windowsLoop]
  | cons w ws ih =>
    simp only [Finder.windowsLoop, List.mem_cons, forall_eq_or_imp]
    cases hb : host.WindowBuffer h w with
    | error e => simp
    | ok b =>
      cases hn : host.Name h b with
      | error e => simp [ih, hn]
      | ok n =>
        by_cases hne : n = f.bufferName
        · subst hne
          simp [hn]
          cases Finder.windowsLoop host f h ws <;> simp
        · simp [hne, ih, hn]

theorem windowsLoop_error_of_buffer (host : Host H) (f : Finder) (h : H) (ws : List Window)
    (w : Window) (e : Err) (hw : w ∈ ws) (he : host.WindowBuffer h w = .error e) :
    ∃ e', Finder.windowsLoop host f h ws = .error e' := by
  induction ws with
  | nil => simp at hw
  | cons v vs ih =>
    simp only [Finder.windowsLoop]
    rcases List.mem_cons.1 hw with hv | hv
    · subst hv
      simp [he]
    · obtain ⟨e', he'⟩ := ih hv
      cases hb : host.WindowBuffer h v with
      | error e1 => exact ⟨e1, rfl⟩
      | ok b =>
        cases hn : host.Name h b with
        | error e1 => exact ⟨e', by simp [hn, he']⟩
        | ok n =>
          by_cases hne : n = f.bufferName
          · exact ⟨e', by simp [hn, hne, he']⟩
          · exact ⟨e', by simp [hn, hne, he']⟩

theorem CurrentFinder_snd (host : Host H) (s : Session H) : (CurrentFinder host s).2 = s := rfl

/-! ## C6: the current pane -/

/-- C6: `CurrentFinder` returns the first pane, in registry order, whose `Buffer()`
lookup succeeds; the buffer found is named with the identifier of the pane and is
focused.  It returns nil exactly when the lookup fails for every pane of the
registry.  When the buffers are listed and no `Focused()` call fails, the lookup of a
pane succeeds exactly when a listed buffer named with its identifier is focused.
`CurrentFinder` leaves the session, hence the registry, as it was. -/
theorem CurrentFinder_first_focused (host : Host H) (s : Session H) :
    (CurrentFinder host s).1 =
        s.finders.find? (fun f => (f.Buffer host s.world.host).isOk)
    ∧ (∀ f, (CurrentFinder host s).1 = some f →
        ∃ l1 l2 b, s.finders = l1 ++ f :: l2
          ∧ f.Buffer host s.world.host = .ok b
          ∧ host.Name s.world.host b = .ok f.bufferName
          ∧ host.Focused s.world.host b = .ok true
          ∧ ∀ g ∈ l1, ∀ c, g.Buffer host s.world.host ≠ .ok c)
    ∧ ((CurrentFinder host s).1 = none ↔
        ∀ f ∈ s.finders, ∀ b, f.Buffer host s.world.host ≠ .ok b)
    ∧ (∀ (f : Finder) (bs : List Buffer), host.Buffers s.world.host = .ok bs →
        (∀ b ∈ bs, ∀ e, host.Focused s.world.host b ≠ .error e) →
        ((∃ b, f.Buffer host s.world.host = .ok b) ↔
          ∃ b ∈ bs, host.Name s.world.host b = .ok f.bufferName
            ∧ host.Focused s.world.host b = .ok true))
    ∧ (CurrentFinder host s).2 = s
    ∧ (CurrentFinder host s).2.finders = s.finders := by
  refine ⟨currentFinderLoop_eq_find host _ _, ?_, currentFinderLoop_none host _ _, ?_, rfl, rfl⟩
  · intro f hf
    obtain ⟨l1, l2, hl, ⟨b, hb⟩, hbefore⟩ := currentFinderLoop_some host _ _ f hf
    have hB := Buffer_ok host f _ b hb
    exact ⟨l1, l2, b, hl, hb, hB.2.1, hB.2.2, hbefore⟩
  · intro f bs hbs hfoc
    simp only [Finder.Buffer, hbs]
    exact bufferLoop_ok_iff host f _ bs hfoc

/-! ## C4: liveness of a pane -/

/-- C4 (amended): `Finder.Closed()` depends on the pane and the host only.  It
returns true exactly when listing the windows succeeds, `Buffer()` succeeds for every
window, and no window shows a buffer whose `Name()` returns the identifier of the
pane; a window whose buffer fails to give its name is skipped.  When listing the
windows fails, or `Buffer()` fails for a window, it returns false. -/
theorem Closed_iff_no_window (host : Host H) (f : Finder) (h : H) :
    (f.Closed host h = true ↔
        ∃ ws, host.Windows h = .ok ws ∧
          ∀ w ∈ ws, ∃ b, host.WindowBuffer h w = .ok b ∧ host.Name h b ≠ .ok f.bufferName)
    ∧ (∀ e, host.Windows h = .error e → f.Closed host h = false)
    ∧ (∀ ws w e, host.Windows h = .ok ws → w ∈ ws → host.WindowBuffer h w = .error e →
        f.Closed host h = false) := by
  refine ⟨?_, ?_, ?_⟩
  · unfold Finder.Closed Finder.Windows
    cases hW : host.Windows h with
    | error e => simp
    | ok ws =>
      simp only [Except.ok.injEq, exists_eq_left']
      rw [← windowsLoop_nil_iff]
      cases hL : Finder.windowsLoop host f h ws with
      | error e => simp
      | ok res => cases res <;> simp
  · intro e hW
    simp [Finder.Closed, Finder.Windows, hW]
  · intro ws w e hW hw he
    obtain ⟨e', he'⟩ := windowsLoop_error_of_buffer host f h ws w e hw he
    simp [Finder.Closed, Finder.Windows, hW, he']

/-- C4 (counterexample): a host call made during the lookup fails, the `Name()` of
the buffer of the only window, and `Closed()` returns true. -/
theorem Closed_true_on_name_failure :
    Editor.host.Windows Editor.unnamedWindow = .ok [1]
    ∧ Editor.host.WindowBuffer Editor.unnamedWindow 1 = .ok 2
    ∧ Editor.host.Name Editor.unnamedWindow 2 = .error "no name"
    ∧ pane0.Closed Editor.host Editor.unnamedWindow = true :=
  ⟨rfl, rfl, rfl, rfl⟩

/-! ## C5: the liveness gate of the commands -/

/-- When the current pane is resolved and not closed, a command is the method of
`Finder` it delegates to, run in the world of the session. -/
theorem Command_live (host : Host H) (c : Command) (s : Session H) (f : Finder)
    (hf : (CurrentFinder host s).1 = some f) (hopen : f.Closed host s.world.host = false) :
    c.exec host s = s.run (c.method host f) := by
  simp only [CurrentFinder] at hf
  cases c <;>
    simp only [Command.exec, Command.method, CurrentFinder, NvimFinder.GoTo, NvimFinder.GoToRoot, NvimFinder.GoToHome, NvimFinder.GoToTrash, NvimFinder.GoToProject, NvimFinder.GoToUpper, NvimFinder.GoToLowerOrOpen, NvimFinder.Select, NvimFinder.ReverseSelected, NvimFinder.Toggle, NvimFinder.ToggleRecursively, NvimFinder.CreateDir, NvimFinder.CreateFile, NvimFinder.Rename, NvimFinder.Move, NvimFinder.OpenExternally, NvimFinder.OpenDirExternally, NvimFinder.Remove, NvimFinder.RemovePermanently, NvimFinder.Restore, NvimFinder.Copy, NvimFinder.ShowCopiedList, NvimFinder.Paste, NvimFinder.Yank, hf, hopen] <;> rfl

/-- Invoking a method of the tree model logs the invocation before the tree model
runs. -/
theorem treeCall_apply (host : Host H) (t : Tree) (args : TreeArgs H) (w : World H) :
    treeCall host t args w =
      host.tree t args { host := w.host, log := w.log ++ [Call.TreeCall t args.op] } := rfl

/-- C5: for each of the 24 commands that act on the current pane, if `CurrentFinder`
resolves no pane, or the pane it resolves is closed, the command returns no error and
leaves the session as it was: the registry is unchanged, the host state is unchanged
and no call is added to the log, so no method of the tree model is invoked and no
prompt is shown. -/
theorem Command_gate (host : Host H) (c : Command) (s : Session H)
    (hgate : (CurrentFinder host s).1 = none ∨
      ∃ f, (CurrentFinder host s).1 = some f ∧ f.Closed host s.world.host = true) :
    c.exec host s = (.ok (), s)
    ∧ (c.exec host s).1 = .ok ()
    ∧ (c.exec host s).2.finders = s.finders
    ∧ (c.exec host s).2.world.log = s.world.log := by
  have key : c.exec host s = (.ok (), s) := by
    simp only [CurrentFinder] at hgate
    rcases hgate with h | ⟨f, h, hc⟩
    · cases c <;> simp only [Command.exec, CurrentFinder, NvimFinder.GoTo, NvimFinder.GoToRoot, NvimFinder.GoToHome, NvimFinder.GoToTrash, NvimFinder.GoToProject, NvimFinder.GoToUpper, NvimFinder.GoToLowerOrOpen, NvimFinder.Select, NvimFinder.ReverseSelected, NvimFinder.Toggle, NvimFinder.ToggleRecursively, NvimFinder.CreateDir, NvimFinder.CreateFile, NvimFinder.Rename, NvimFinder.Move, NvimFinder.OpenExternally, NvimFinder.OpenDirExternally, NvimFinder.Remove, NvimFinder.RemovePermanently, NvimFinder.Restore, NvimFinder.Copy, NvimFinder.ShowCopiedList, NvimFinder.Paste, NvimFinder.Yank, h]
    · cases c <;> simp only [Command.exec, CurrentFinder, NvimFinder.GoTo, NvimFinder.GoToRoot, NvimFinder.GoToHome, NvimFinder.GoToTrash, NvimFinder.GoToProject, NvimFinder.GoToUpper, NvimFinder.GoToLowerOrOpen, NvimFinder.Select, NvimFinder.ReverseSelected, NvimFinder.Toggle, NvimFinder.ToggleRecursively, NvimFinder.CreateDir, NvimFinder.CreateFile, NvimFinder.Rename, NvimFinder.Move, NvimFinder.OpenExternally, NvimFinder.OpenDirExternally, NvimFinder.Remove, NvimFinder.RemovePermanently, NvimFinder.Restore, NvimFinder.Copy, NvimFinder.ShowCopiedList, NvimFinder.Paste, NvimFinder.Yank, h, hc, if_true]
  rw [key]
  exact ⟨rfl, rfl, rfl, rfl⟩

/-- C5 (witness): with no pane in the registry, `GoTo` is a no-op. -/
theorem Command_gate_witness :
    (CurrentFinder Editor.host (Session.init Editor.empty)).1 = none
    ∧ (Command.GoTo.exec Editor.host (Session.init Editor.empty)).2.world.log = [] :=
  ⟨rfl, (Command_gate Editor.host .GoTo (Session.init Editor.empty) (Or.inl rfl)).2.2.2⟩

/-! ## C7: the phrasing of the prompts -/

theorem call_log (host : Host H) (c : Call) (w : World H) :
    (call host c w).2.log = w.log ++ [c] := rfl

theorem two_le_length {α : Type} (os : List α) (h : 2 ≤ os.length) :
    ∃ a b rest, os = a :: b :: rest := by
  match os, h with
  | a :: b :: rest, _ => exact ⟨a, b, rest, rfl⟩

/-- C7: each of `Move`, `Remove`, `Restore` and `RemovePermanently` invokes its
method of the tree model and hands it a prompt callback.  Called with exactly one
operand, that callback issues the prompt with the singular text made of the type of
the operand and, in single quotes, its name (for `Restore`, its original path);
called with two or more operands it issues a fixed text, which for `Remove` contains
"selected objects". -/
theorem prompt_phrasing (host : Host H) (f : Finder) (w : World H) (o : Operator)
    (os : Operators) (hos : 2 ≤ os.length) :
    (f.Move host w =
        host.tree f.tree (f.moveArgs host)
          { host := w.host, log := w.log ++ [.TreeCall f.tree .Move] }
      ∧ ∃ input, (f.moveArgs host).destination? = some input
        ∧ ∀ v : World H,
          (input [o] v).2.log = v.log ++
            [.InputString ("Enter the destination to move the " ++ o.TypeOf ++ " \x27"
              ++ o.Name ++ "\x27") "" .Dir]
          ∧ (input os v).2.log = v.log ++
            [.InputString "Enter the destination to move the selected files" "" .Dir])
    ∧ (f.Remove host w =
        host.tree f.tree (f.removeArgs host)
          { host := w.host, log := w.log ++ [.TreeCall f.tree .Remove] }
      ∧ ∃ confirm, (f.removeArgs host).confirm? = some confirm
        ∧ ∀ v : World H,
          (confirm [o] v).2.log = v.log ++
            [.InputBool ("Are you sure you want to remove the " ++ o.TypeOf ++ " \x27"
              ++ o.Name ++ "\x27?")]
          ∧ (confirm os v).2.log = v.log ++
            [.InputBool "Are you sure you want to remove the selected objects?"]
          ∧ ∃ pre post, (confirm os v).2.log = v.log ++
            [.InputBool (pre ++ "selected objects" ++ post)])
    ∧ (f.Restore host w =
        host.tree f.tree (f.restoreArgs host)
          { host := w.host, log := w.log ++ [.TreeCall f.tree .Restore] }
      ∧ ∃ confirm, (f.restoreArgs host).confirm? = some confirm
        ∧ ∀ v : World H,
          (confirm [o] v).2.log = v.log ++
            [.InputBool ("Are you sure you want to restore the " ++ o.TypeOf ++ " \x27"
              ++ o.OriginalPath ++ "\x27?")]
          ∧ (confirm os v).2.log = v.log ++
            [.InputBool "Are you sure you want to restore the selected objects?"])
    ∧ (f.RemovePermanently host w =
        host.tree f.tree (f.removePermanentlyArgs host)
          { host := w.host, log := w.log ++ [.TreeCall f.tree .RemovePermanently] }
      ∧ ∃ confirm, (f.removePermanentlyArgs host).confirm? = some confirm
        ∧ ∀ v : World H,
          (confirm [o] v).2.log = v.log ++
            [.InputBool ("Are you sure you want to permanently remove the " ++ o.TypeOf
              ++ " \x27" ++ o.Name ++ "\x27?")]
          ∧ (confirm os v).2.log = v.log ++
            [.InputBool "Are you sure you want to permanently remove the selected objects?"]) := by
  obtain ⟨a, b, rest, rfl⟩ := two_le_length os hos
  refine ⟨⟨rfl, f.moveInput host, rfl, fun v => ⟨rfl, rfl⟩⟩,
    ⟨rfl, f.removeConfirm host, rfl, fun v =>
      ⟨rfl, rfl, "Are you sure you want to remove the ", "?", rfl⟩⟩,
    ⟨rfl, f.restoreConfirm host, rfl, fun v => ⟨rfl, rfl⟩⟩,
    ⟨rfl, f.removePermanentlyConfirm host, rfl, fun v => ⟨rfl, rfl⟩⟩⟩

/-- C7 (witness): `Remove` invokes the tree model, and the confirmation callback it
hands over prompts with the type and name of the file `a.txt` when it is the only
operand, and with the batch text for `a.txt` and `b.txt`. -/
theorem prompt_phrasing_witness :
    2 ≤ [fileA, fileB].length
    ∧ (pane0.Remove Editor.host (Session.init Editor.empty).world).2.log =
        [.TreeCall 0 .Remove]
    ∧ ∃ confirm, (pane0.removeArgs Editor.host).confirm? = some confirm
      ∧ (confirm [fileA] (Session.init Editor.empty).world).2.log =
          [.InputBool "Are you sure you want to remove the file \x27a.txt\x27?"]
      ∧ (confirm [fileA, fileB] (Session.init Editor.empty).world).2.log =
          [.InputBool "Are you sure you want to remove the selected objects?"] := by
  have h := (prompt_phrasing Editor.host pane0 (Session.init Editor.empty).world fileA
    [fileA, fileB] (by decide)).2.1
  obtain ⟨hrun, confirm, hc, hlog⟩ := h
  refine ⟨by decide, ?_, confirm, hc, ?_, ?_⟩
  · rw [hrun]
    rfl
  · exact (hlog (Session.init Editor.empty).world).1
  · exact (hlog (Session.init Editor.empty).world).2.1

/-! ## C9: cancelling a prompt -/

/-- C9 (amended): `Rename`, `Move`, `Remove`, `Restore` and `RemovePermanently` hand
the tree model a cancellation-notice callback that prints one notice; when the prompt
is cancelled the only call made is that one notice, and nothing is rendered.
`CreateDir` and `CreateFile` hand the tree model no cancellation callback; when the
prompt is cancelled no call is made at all: nothing is rendered and no notice is
printed. -/
theorem cancel_notice (host : Host H) (f : Finder) (w : World H) (c : Prompted) :
    (c ≠ .CreateDir ∧ c ≠ .CreateFile →
      ∃ text, (c.args host f).cancel? = some (call host (.Printf text))
        ∧ (cancelled (c.args host f) w).2.log = w.log ++ [.Printf text]
        ∧ notices (cancelled (c.args host f) w).2.log = notices w.log + 1
        ∧ renders (cancelled (c.args host f) w).2.log = renders w.log)
    ∧ (c = .CreateDir ∨ c = .CreateFile →
      (c.args host f).cancel? = none
        ∧ cancelled (c.args host f) w = (.ok (), w)) := by
  have hn : ∀ text, notices (w.log ++ [Call.Printf text]) = notices w.log + 1 := by
    intro text; simp [notices, List.countP_append]
  have hr : ∀ text, renders (w.log ++ [Call.Printf text]) = renders w.log := by
    intro text; simp [renders, List.countP_append]
  cases c
  · exact ⟨fun _ => ⟨"Renaming has been canceled.\n", rfl, rfl, hn _, hr _⟩,
      fun h => by simp at h⟩
  · exact ⟨fun _ => ⟨"Moving has been canceled.\n", rfl, rfl, hn _, hr _⟩,
      fun h => by simp at h⟩
  · exact ⟨fun _ => ⟨"Remove has been canceled.\n", rfl, rfl, hn _, hr _⟩,
      fun h => by simp at h⟩
  · exact ⟨fun _ => ⟨"Remove has been canceled.\n", rfl, rfl, hn _, hr _⟩,
      fun h => by simp at h⟩
  · exact ⟨fun _ => ⟨"Remove permanently has been canceled.\n", rfl, rfl, hn _, hr _⟩,
      fun h => by simp at h⟩
  · exact ⟨fun h => absurd rfl h.1, fun _ => ⟨rfl, rfl⟩⟩
  · exact ⟨fun h => absurd rfl h.2, fun _ => ⟨rfl, rfl⟩⟩

/-- C9 (counterexample): `CreateDir` hands the tree model no cancellation-notice
callback, and cancelling its prompt prints no notice. -/
theorem CreateDir_no_cancel_notice :
    ((Prompted.CreateDir.args Editor.host pane0).cancel?).isNone = true
    ∧ notices (cancelled (Prompted.CreateDir.args Editor.host pane0)
        (Session.init Editor.empty).world).2.log ≠ 1 :=
  ⟨rfl, by decide⟩

/-! ## Lemmas on `New` and on the registry -/

theorem M.returns_bind {α β : Type} {m : M H α} {k : α → M H β} {P : β → Prop}
    (hk : ∀ a, M.Returns (k a) P) : M.Returns (m >>= k) P := by
  intro w b w' h
  rw [M.bind_apply] at h
  split at h
  · exact hk _ _ _ _ h
  · simp at h

theorem M.returns_pure {α : Type} {a : α} {P : α → Prop} (h : P a) :
    M.Returns (Pure.pure a : M H α) P := by
  intro w b w' hb
  rw [M.pure_apply] at hb
  simp only [Prod.mk.injEq, Except.ok.injEq] at hb
  exact hb.1 ▸ h

/-- A pane returned by `New` has the address of its allocation, the identifier made
of the working directory, the base name and the index, and the configured file type
and width. -/
theorem New_ok (host : Host H) (addr index : Nat) (w : World H) (f : Finder) (w' : World H)
    (h : New host addr index w = (.ok f, w')) :
    f.addr = addr ∧
      f.bufferName =
        identifier host (host.NearestDirectory w.host) (configBufferName host w.host) index
      ∧ f.fileType = configFileType host w.host ∧ f.width = configWidth host w.host := by
  unfold New at h
  revert h
  generalize host.NearestDirectory w.host = cw
  generalize configBufferName host w.host = bn
  generalize configFileType host w.host = ft
  generalize configWidth host w.host = wd
  intro h
  have key : M.Returns (H := H) (do
    let t ← call host (.TreeNew cw)
    let f : Finder :=
      { addr := addr
        bufferName := identifier host cw bn index
        fileType := ft
        width := wd
        tree := t }
    let w ← call host (.CreateWindowLeft f.bufferName)
    call host (.Focus w)
    call host (.WindowSetOption w)
    call host (.SetWidth w f.width)
    let b ← M.query (fun h => host.WindowBuffer h w)
    call host (.BufferSetOption b)
    call host (.SetFileType b f.fileType)
    treeCall host f.tree (.Open (f.Render host))
    pure f) (fun f => f.addr = addr ∧ f.bufferName = identifier host cw bn index
      ∧ f.fileType = ft ∧ f.width = wd) := by
    refine M.returns_bind fun t => ?_
    refine M.returns_bind fun _ => ?_
    refine M.returns_bind fun _ => ?_
    refine M.returns_bind fun _ => ?_
    refine M.returns_bind fun _ => ?_
    refine M.returns_bind fun _ => ?_
    refine M.returns_bind fun _ => ?_
    refine M.returns_bind fun _ => ?_
    refine M.returns_bind fun _ => ?_
    exact M.returns_pure ⟨rfl, rfl, rfl, rfl⟩
  exact key w f w' h

/-- Dropping the entries equal to the pointer `f` from a registry of distinct
allocations removes `f` alone and keeps the order of the others. -/
theorem filter_addr_ne (l1 l2 : List Finder) (f : Finder)
    (hnd : ((l1 ++ f :: l2).map (·.addr)).Nodup) :
    (l1 ++ f :: l2).filter (fun g => decide (g.addr ≠ f.addr)) = l1 ++ l2 := by
  simp only [List.map_append, List.map_cons, List.nodup_append, List.nodup_cons,
    List.mem_map, not_exists, not_and, List.mem_cons] at hnd
  obtain ⟨_, ⟨hf2, _⟩, hdis⟩ := hnd
  have h1 : l1.filter (fun g => decide (g.addr ≠ f.addr)) = l1 := by
    rw [List.filter_eq_self]
    intro g hg
    have : g.addr ≠ f.addr := fun heq =>
      hdis (List.mem_map_of_mem _ hg) (heq ▸ List.mem_cons_self _ _)
    simpa using this
  have h2 : l2.filter (fun g => decide (g.addr ≠ f.addr)) = l2 := by
    rw [List.filter_eq_self]
    intro g hg
    have : g.addr ≠ f.addr := fun heq => hf2 g hg heq
    simpa using this
  rw [List.filter_append, List.filter_cons, h1, h2]
  simp

theorem OpenPane_ok (host : Host H) (s s' : Session H) (h : OpenPane host s = (.ok (), s')) :
    ∃ f w', New host s.nextAddr s.finders.length s.world = (.ok f, w') ∧
      s' = { finders := s.finders ++ [f], nextAddr := s.nextAddr + 1, world := w' } := by
  unfold OpenPane at h
  split at h
  · simp at h
  · rename_i f w' hN
    simp only [Prod.mk.injEq, true_and] at h
    exact ⟨f, w', hN, h.symm⟩

theorem OpenPane_error (host : Host H) (s s' : Session H) (e : Err)
    (h : OpenPane host s = (.error e, s')) :
    s'.finders = s.finders ∧ s'.nextAddr = s.nextAddr + 1 := by
  unfold OpenPane at h
  split at h
  · simp only [Prod.mk.injEq] at h
    rw [← h.2]
    exact ⟨rfl, rfl⟩
  · simp at h

theorem OpenPane_wellFormed (host : Host H) (s : Session H) (hwf : s.WellFormed) :
    (OpenPane host s).2.WellFormed := by
  unfold OpenPane
  split
  · exact ⟨hwf.1, fun f hf => Nat.lt_succ_of_lt (hwf.2 f hf)⟩
  · rename_i f w' hN
    have hf := (New_ok host _ _ _ f w' hN).1
    refine ⟨?_, ?_⟩
    · simp only [List.map_append, List.map_cons, List.map_nil]
      rw [List.nodup_append]
      refine ⟨hwf.1, by simp, ?_⟩
      intro a ha hb
      simp only [List.mem_singleton] at hb
      obtain ⟨g, hg, rfl⟩ := List.mem_map.1 ha
      have := hwf.2 g hg
      omega
    · intro g hg
      rcases List.mem_append.1 hg with hg | hg
      · exact Nat.lt_succ_of_lt (hwf.2 g hg)
      · simp only [List.mem_singleton] at hg
        subst hg
        show g.addr < s.nextAddr + 1
        omega

/-- The three ways `ClosePane` ends: no pane resolved; the close of the resolved
pane fails; the close succeeds and the entries equal to the pane are dropped. -/
theorem ClosePane_cases (host : Host H) (s : Session H) :
    ((CurrentFinder host s).1 = none ∧ ClosePane host s = (.ok (), s))
    ∨ (∃ f e w', (CurrentFinder host s).1 = some f ∧ f.Close host s.world = (.error e, w')
        ∧ ClosePane host s = (.error e, { s with world := w' }))
    ∨ (∃ f w', (CurrentFinder host s).1 = some f ∧ f.Close host s.world = (.ok (), w')
        ∧ ClosePane host s =
          (.ok (), { s with finders := s.finders.filter (fun g => g.addr ≠ f.addr),
                            world := w' })) := by
  unfold ClosePane
  simp only [CurrentFinder]
  cases hc : currentFinderLoop host s.world.host s.finders with
  | none => exact Or.inl ⟨rfl, rfl⟩
  | some f =>
    right
    rcases hclose : f.Close host s.world with ⟨r, w'⟩
    cases r with
    | error e => exact Or.inl ⟨f, e, w', rfl, hclose, by simp only [hclose]⟩
    | ok u => exact Or.inr ⟨f, w', rfl, hclose, by simp only [hclose]⟩

theorem ClosePane_wellFormed (host : Host H) (s : Session H) (hwf : s.WellFormed) :
    (ClosePane host s).2.WellFormed := by
  rcases ClosePane_cases host s with ⟨_, h⟩ | ⟨f, e, w', _, _, h⟩ | ⟨f, w', _, _, h⟩
  · rw [h]; exact hwf
  · rw [h]; exact hwf
  · rw [h]
    refine ⟨?_, ?_⟩
    · exact hwf.1.sublist ((List.filter_sublist _).map _)
    · intro g hg
      exact hwf.2 g (List.mem_filter.1 hg).1

theorem CloseAllPanes_wellFormed (host : Host H) (s : Session H) (hwf : s.WellFormed) :
    (CloseAllPanes host s).2.WellFormed := by
  unfold CloseAllPanes
  split
  · exact hwf
  · exact ⟨List.nodup_nil, fun f hf => by simp at hf⟩

theorem TogglePane_wellFormed (host : Host H) (s : Session H) (hwf : s.WellFormed) :
    (TogglePane host s).2.WellFormed := by
  unfold TogglePane
  simp only [Closed]
  split
  · rename_i b s1 heq
    apply OpenPane_wellFormed
    refine ⟨List.nodup_nil, fun f hf => by simp at hf⟩
  · rename_i b s1 heq
    have hs : s1 = s := by
      split at heq <;> simp only [Prod.mk.injEq] at heq <;> exact heq.2.symm
    subst hs
    split
    · exact hwf
    · exact ⟨List.nodup_nil, fun f hf => by simp at hf⟩

/-! ## C10: the frame of `ClosePane` -/

/-- C10: in a registry of distinct allocations, if `CurrentFinder` resolves a pane
and closing its windows succeeds, the registry after `ClosePane` is the registry
before with that pane removed and the other panes in the same order; if no pane is
resolved, or closing fails, the registry is unchanged. -/
theorem ClosePane_frame (host : Host H) (s : Session H)
    (hnd : (s.finders.map (·.addr)).Nodup) :
    ((CurrentFinder host s).1 = none → ClosePane host s = (.ok (), s))
    ∧ (∀ f e w', (CurrentFinder host s).1 = some f → f.Close host s.world = (.error e, w') →
        ClosePane host s = (.error e, { s with world := w' })
          ∧ (ClosePane host s).2.finders = s.finders)
    ∧ (∀ f w', (CurrentFinder host s).1 = some f → f.Close host s.world = (.ok (), w') →
        ∃ l1 l2, s.finders = l1 ++ f :: l2
          ∧ ClosePane host s = (.ok (), { s with finders := l1 ++ l2, world := w' })) := by
  refine ⟨?_, ?_, ?_⟩
  · intro hnone
    rcases ClosePane_cases host s with ⟨_, h⟩ | ⟨f, e, w', hf, _, _⟩ | ⟨f, w', hf, _, _⟩
    · exact h
    · rw [hnone] at hf; cases hf
    · rw [hnone] at hf; cases hf
  · intro f e w' hcur hclose
    rcases ClosePane_cases host s with ⟨hn, _⟩ | ⟨g, e1, w1, hg, hc, h⟩ | ⟨g, w1, hg, hc, _⟩
    · rw [hcur] at hn; cases hn
    · rw [hcur] at hg
      cases hg
      rw [hclose] at hc
      simp only [Prod.mk.injEq, Except.error.injEq] at hc
      obtain ⟨rfl, rfl⟩ := hc
      rw [h]
      exact ⟨rfl, rfl⟩
    · rw [hcur] at hg
      cases hg
      rw [hclose] at hc
      simp at hc
  · intro f w' hcur hclose
    rcases ClosePane_cases host s with ⟨hn, _⟩ | ⟨g, e1, w1, hg, hc, _⟩ | ⟨g, w1, hg, hc, h⟩
    · rw [hcur] at hn; cases hn
    · rw [hcur] at hg
      cases hg
      rw [hclose] at hc
      simp at hc
    · rw [hcur] at hg
      cases hg
      rw [hclose] at hc
      simp only [Prod.mk.injEq, true_and] at hc
      subst hc
      obtain ⟨l1, l2, hl, _⟩ := currentFinderLoop_some host _ _ f hcur
      refine ⟨l1, l2, hl, ?_⟩
      rw [h]
      have hfil := filter_addr_ne l1 l2 f (hl ▸ hnd)
      rw [← hl] at hfil
      rw [hfil]

/-- C10 (witness): with two panes open and the second one focused, `ClosePane`
removes the second pane and keeps the first. -/
theorem ClosePane_frame_witness :
    (twoPanes.finders.map (·.addr)).Nodup
    ∧ twoPanes.finders = [pane0, pane1]
    ∧ ∃ l1 l2, twoPanes.finders = l1 ++ pane1 :: l2
        ∧ ClosePane Editor.host twoPanes =
          (.ok (), { twoPanes with finders := l1 ++ l2,
                                   world := (pane1.Close Editor.host twoPanes.world).2 }) :=
  ⟨by decide, rfl,
    (ClosePane_frame Editor.host twoPanes (by decide)).2.2 pane1
      (pane1.Close Editor.host twoPanes.world).2 rfl rfl⟩

/-! ## C2: the number of panes -/

theorem step_invariant (host : Host H) (step : Step H) (st : Session H × Tally)
    (hwf : st.1.WellFormed)
    (hcount : st.1.finders.length + st.2.removed = st.2.opened ∧ st.2.removed ≤ st.2.closed) :
    (step.apply host st).1.WellFormed
    ∧ (step.apply host st).1.finders.length + (step.apply host st).2.removed =
        (step.apply host st).2.opened
    ∧ (step.apply host st).2.removed ≤ (step.apply host st).2.closed := by
  obtain ⟨s, t⟩ := st
  simp only at hwf hcount
  cases step with
  | OpenPane =>
    have hwf' := OpenPane_wellFormed host s hwf
    simp only [Step.apply]
    rcases hO : OpenPane host s with ⟨r, s'⟩
    rw [hO] at hwf'
    cases r with
    | error e =>
      have := (OpenPane_error host s s' e hO).1
      simp only
      exact ⟨hwf', by rw [this]; exact hcount.1, hcount.2⟩
    | ok u =>
      obtain ⟨f, w', _, rfl⟩ := OpenPane_ok host s s' hO
      simp only [List.length_append, List.length_singleton]
      exact ⟨hwf', by omega, hcount.2⟩
  | ClosePane =>
    have hwf' := ClosePane_wellFormed host s hwf
    simp only [Step.apply]
    rcases ClosePane_cases host s with ⟨hn, h⟩ | ⟨f, e, w', _, _, h⟩ | ⟨f, w', hf, _, h⟩
    · rw [h] at hwf' ⊢
      simp only [hn, Option.isSome_none, Bool.false_eq_true, if_false]
      exact ⟨hwf', hcount.1, by omega⟩
    · rw [h] at hwf' ⊢
      exact ⟨hwf', hcount.1, hcount.2⟩
    · rw [h] at hwf' ⊢
      simp only [hf, Option.isSome_some, if_true]
      obtain ⟨l1, l2, hl, _⟩ := currentFinderLoop_some host _ _ f hf
      have hfil := filter_addr_ne l1 l2 f (hl ▸ hwf.1)
      rw [← hl] at hfil
      refine ⟨hwf', ?_, by omega⟩
      simp only [hfil]
      have hlen : s.finders.length = l1.length + l2.length + 1 := by
        rw [hl]; simp only [List.length_append, List.length_cons]; omega
      simp only [List.length_append]
      omega
  | Change change => exact ⟨hwf, hcount.1, hcount.2⟩

theorem runSteps_invariant (host : Host H) (steps : List (Step H)) (st : Session H × Tally)
    (hwf : st.1.WellFormed)
    (hcount : st.1.finders.length + st.2.removed = st.2.opened ∧ st.2.removed ≤ st.2.closed) :
    (runSteps host steps st).1.WellFormed
    ∧ (runSteps host steps st).1.finders.length + (runSteps host steps st).2.removed =
        (runSteps host steps st).2.opened
    ∧ (runSteps host steps st).2.removed ≤ (runSteps host steps st).2.closed := by
  induction steps generalizing st with
  | nil => exact ⟨hwf, hcount.1, hcount.2⟩
  | cons step steps ih =>
    have h := step_invariant host step st hwf hcount
    exact ih (step.apply host st) h.1 h.2

theorem Session.init_wellFormed (h : H) : (Session.init h).WellFormed :=
  ⟨List.nodup_nil, fun f hf => by simp [Session.init] at hf⟩

/-- Every session reached from the empty registry by `OpenPane`, `ClosePane` and
changes of the host holds distinct allocations. -/
theorem runSteps_wellFormed (host : Host H) (h0 : H) (steps : List (Step H)) :
    (runSteps host steps (start h0)).1.WellFormed :=
  (runSteps_invariant host steps (start h0) (Session.init_wellFormed h0) ⟨rfl, Nat.le_refl _⟩).1

/-- C2 (amended): starting from the empty registry, after every finite sequence of
`OpenPane` and `ClosePane` commands, with any change of the host between them, the
length of the registry equals the number of `OpenPane` calls that returned no error
minus the number of `ClosePane` calls that returned no error after resolving a
current pane; this number is never negative. -/
theorem pane_count (host : Host H) (h0 : H) (steps : List (Step H)) :
    ((runSteps host steps (start h0)).1.finders.length : Int) =
        ((runSteps host steps (start h0)).2.opened : Int)
          - ((runSteps host steps (start h0)).2.removed : Int)
    ∧ (0 : Int) ≤ ((runSteps host steps (start h0)).2.opened : Int)
          - ((runSteps host steps (start h0)).2.removed : Int)
    ∧ (runSteps host steps (start h0)).2.removed ≤ (runSteps host steps (start h0)).2.closed := by
  have h := runSteps_invariant host steps (start h0) (Session.init_wellFormed h0)
    ⟨rfl, Nat.le_refl _⟩
  refine ⟨by omega, by omega, h.2.2⟩

/-- C2 (counterexample): `ClosePane` on the empty registry resolves no pane and
returns no error; it is a `ClosePane` call that succeeded, and the registry has 0
panes, not 0 - 1. -/
theorem pane_count_close_on_empty :
    (ClosePane Editor.host (Session.init Editor.empty)).1 = .ok ()
    ∧ (runSteps Editor.host [.ClosePane] (start Editor.empty)).2.opened = 0
    ∧ (runSteps Editor.host [.ClosePane] (start Editor.empty)).2.closed = 1
    ∧ ((runSteps Editor.host [.ClosePane] (start Editor.empty)).1.finders.length : Int) ≠
        ((runSteps Editor.host [.ClosePane] (start Editor.empty)).2.opened : Int)
          - ((runSteps Editor.host [.ClosePane] (start Editor.empty)).2.closed : Int) :=
  ⟨rfl, rfl, rfl, by decide⟩

/-! ## C3: the identifiers of the panes -/

/-- The session `twoPanes` is the one reached from the empty registry by two
`OpenPane` in the reference editor. -/
theorem twoPanes_reached :
    runSteps Editor.host [.OpenPane, .OpenPane] (start Editor.empty) =
      (twoPanes, { opened := 2, closed := 0, removed := 0 }) := by
  have h1 : Step.apply Editor.host .OpenPane (start Editor.empty) =
      (onePane, { opened := 1, closed := 0, removed := 0 }) := rfl
  have h2 : Step.apply Editor.host .OpenPane
      (onePane, { opened := 1, closed := 0, removed := 0 }) =
      (twoPanes, { opened := 2, closed := 0, removed := 0 }) := rfl
  rw [runSteps, h1, runSteps, h2, runSteps]

/-- C3 (failing input): open two panes, focus the first, close it, open a pane.
The new pane takes the index 1, the length of the registry, and the registry ends
with two distinct panes that have the same identifier. -/
theorem identifier_reused_after_close :
    runSteps Editor.host
        [.OpenPane, .OpenPane, .Change focusFirstPane, .ClosePane, .OpenPane]
        (start Editor.empty) = (sameIdentifier, { opened := 3, closed := 1, removed := 1 })
    ∧ sameIdentifier.finders.map (·.addr) = [1, 2]
    ∧ sameIdentifier.finders.map (·.bufferName) = ["/w/finder-1", "/w/finder-1"] := by
  have h1 : Step.apply Editor.host .OpenPane (start Editor.empty) =
      (onePane, { opened := 1, closed := 0, removed := 0 }) := rfl
  have h2 : Step.apply Editor.host .OpenPane
      (onePane, { opened := 1, closed := 0, removed := 0 }) =
      (twoPanes, { opened := 2, closed := 0, removed := 0 }) := rfl
  have h3 : Step.apply Editor.host (.Change focusFirstPane)
      (twoPanes, { opened := 2, closed := 0, removed := 0 }) =
      (twoPanesFirstFocused, { opened := 2, closed := 0, removed := 0 }) := rfl
  have h4 : Step.apply Editor.host .ClosePane
      (twoPanesFirstFocused, { opened := 2, closed := 0, removed := 0 }) =
      (secondPaneOnly, { opened := 2, closed := 1, removed := 1 }) := rfl
  have h5 : Step.apply Editor.host .OpenPane
      (secondPaneOnly, { opened := 2, closed := 1, removed := 1 }) =
      (sameIdentifier, { opened := 3, closed := 1, removed := 1 }) := rfl
  refine ⟨?_, rfl, rfl⟩
  rw [runSteps, h1, runSteps, h2, runSteps, h3, runSteps, h4, runSteps, h5, runSteps]

/-! ## C1: `TogglePane` -/

theorem closedLoop_eq (host : Host H) (h : H) (fs : List Finder) (closed : Bool) :
    closedLoop host h fs closed = (closed && fs.all (fun f => f.Closed host h)) := by
  induction fs generalizing closed with
  | nil => simp [closedLoop]
  | cons f fs ih =>
    simp only [closedLoop, List.all_cons]
    cases hc : f.Closed host h <;> simp [ih]

/-- The function `Closed` of `static.go` answers true exactly when the registry is
empty or every pane in it is closed. -/
theorem Closed_iff_all (host : Host H) (s : Session H) :
    (Closed host s).1 = true ↔ ∀ f ∈ s.finders, f.Closed host s.world.host = true := by
  unfold Closed
  split
  · rename_i h0
    have : s.finders = [] := List.length_eq_zero.1 h0
    simp [this]
  · simp [closedLoop_eq]

theorem Closed_snd (host : Host H) (s : Session H) : (Closed host s).2 = s := by
  unfold Closed
  split <;> rfl

/-- C1 (amended): `Closed()` holds exactly when the registry is empty or every pane
in it is closed.  In that case `TogglePane` discards the old registry and opens a
pane with index 0: when `New` succeeds the registry afterwards holds exactly the new
pane, whose identifier ends in `-0`; when `New` fails the error is returned and the
registry is left empty.  Otherwise `TogglePane` closes the panes in registry order:
when every close succeeds the registry is left empty; when a close fails the error is
returned and the registry is unchanged. -/
theorem TogglePane_spec (host : Host H) (s : Session H) :
    ((Closed host s).1 = true ↔ ∀ f ∈ s.finders, f.Closed host s.world.host = true)
    ∧ ((Closed host s).1 = true →
        (∀ f w', New host s.nextAddr 0 s.world = (.ok f, w') →
          TogglePane host s =
              (.ok (), { finders := [f], nextAddr := s.nextAddr + 1, world := w' })
            ∧ f.bufferName = identifier host (host.NearestDirectory s.world.host)
                (configBufferName host s.world.host) 0)
        ∧ (∀ e w', New host s.nextAddr 0 s.world = (.error e, w') →
          TogglePane host s =
            (.error e, { finders := [], nextAddr := s.nextAddr + 1, world := w' })))
    ∧ ((Closed host s).1 = false →
        (∀ w', closeEach host s.finders s.world = (.ok (), w') →
          TogglePane host s = (.ok (), { s with finders := [], world := w' }))
        ∧ (∀ e w', closeEach host s.finders s.world = (.error e, w') →
          TogglePane host s = (.error e, { s with world := w' }))) := by
  have hpair : Closed host s = ((Closed host s).1, s) :=
    Prod.ext rfl (Closed_snd host s)
  refine ⟨Closed_iff_all host s, ?_, ?_⟩
  · intro hc
    rw [hc] at hpair
    refine ⟨?_, ?_⟩
    · intro f w' hN
      refine ⟨?_, (New_ok host _ _ _ f w' hN).2.1⟩
      unfold TogglePane
      rw [hpair]
      simp only [OpenPane, List.length_nil, hN, List.nil_append]
    · intro e w' hN
      unfold TogglePane
      rw [hpair]
      simp only [OpenPane, List.length_nil, hN]
  · intro hc
    rw [hc] at hpair
    refine ⟨?_, ?_⟩
    · intro w' hE
      unfold TogglePane
      rw [hpair]
      simp only [hE]
    · intro e w' hE
      unfold TogglePane
      rw [hpair]
      simp only [hE]

/-- C1 (counterexample): on the empty registry, with an editor that refuses the new
window, `TogglePane` returns the error and leaves the registry empty: it does not
hold one pane. -/
theorem TogglePane_refused :
    (Session.init Editor.refusing).finders = []
    ∧ (TogglePane Editor.host (Session.init Editor.refusing)).1
        = .error "cannot create a window"
    ∧ (TogglePane Editor.host (Session.init Editor.refusing)).2.finders = [] :=
  ⟨rfl, rfl, rfl⟩

/-- C1 (witness): on the empty registry `TogglePane` opens the pane of index 0; with
that pane open, `TogglePane` closes it and empties the registry. -/
theorem TogglePane_spec_witness :
    (TogglePane Editor.host (Session.init Editor.empty)).2.finders = [pane0]
    ∧ (Closed Editor.host (TogglePane Editor.host (Session.init Editor.empty)).2).1 = false
    ∧ (TogglePane Editor.host (TogglePane Editor.host (Session.init Editor.empty)).2).2.finders
        = [] := by
  have h1 := ((TogglePane_spec Editor.host (Session.init Editor.empty)).2.1 rfl).1 pane0
    (New Editor.host 0 0 (Session.init Editor.empty).world).2 rfl
  have h2 := ((TogglePane_spec Editor.host
    (TogglePane Editor.host (Session.init Editor.empty)).2).2.2 rfl).1 _ rfl
  refine ⟨?_, rfl, ?_⟩
  · rw [h1.1]
  · rw [h2]

/-! ## C8: where `OpenFile` shows the file -/

theorem call_of_ok (host : Host H) (c : Call) (w : World H) (r : c.Resp)
    (h : (host.exec w.host c).1 = .ok r) :
    call host c w = (.ok r, { host := (host.exec w.host c).2, log := w.log ++ [c] }) := by
  unfold call
  rw [← h]

/-- When `SetWidth` succeeds, the loop of `ResetWindowWidth` sets the width of each
window of the list, in order, and makes no other call. -/
theorem setWidth_loop (host : Host H) (n : Int)
    (hSet : ∀ h w, (host.exec h (.SetWidth w n)).1 = .ok ()) (ws : List Window)
    (w0 : World H) :
    (Finder.eachWindow (fun w => call host (.SetWidth w n)) ws w0).1 = .ok ()
    ∧ (Finder.eachWindow (fun w => call host (.SetWidth w n)) ws w0).2.log =
        w0.log ++ ws.map (fun w => Call.SetWidth w n) := by
  induction ws generalizing w0 with
  | nil => exact ⟨rfl, by simp [Finder.eachWindow, M.pure_apply]⟩
  | cons v vs ih =>
    simp only [Finder.eachWindow, M.bind_apply]
    rw [call_of_ok host (.SetWidth v n) w0 () (hSet w0.host v)]
    simp only
    have := ih { host := (host.exec w0.host (.SetWidth v n)).2, log := w0.log ++ [.SetWidth v n] }
    refine ⟨this.1, ?_⟩
    rw [this.2]
    simp

/-- The loop of `OpenFile` passes over the windows whose buffer has the file type of
the pane. -/
theorem openFileLoop_skip (host : Host H) (f : Finder) (path : String) (rest : M H Unit)
    (pre tail : List Window) (w0 : World H)
    (hpre : ∀ v ∈ pre, ∃ b, host.WindowBuffer w0.host v = .ok b
      ∧ host.FileType w0.host b = .ok f.fileType) :
    Finder.openFileLoop host f path rest (pre ++ tail) w0 =
      Finder.openFileLoop host f path rest tail w0 := by
  induction pre with
  | nil => rfl
  | cons v vs ih =>
    obtain ⟨b, hb, hft⟩ := hpre v (List.mem_cons_self _ _)
    simp only [List.cons_append, Finder.openFileLoop, M.bind_apply, M.query_apply, hb, hft,
      ne_eq, not_true_eq_false, if_false]
    exact ih (fun u hu => hpre u (List.mem_cons_of_mem _ hu))

/-- C8 (amended): when the host calls succeed, if the buffer of every window has the
file type of the pane, `OpenFile` creates one window on the right showing the file,
then sets to the configured width each window of this pane (the windows whose
buffer is named with its identifier, looked up after the creation), and focuses the
new window; the windows of the other panes are not resized.  If the buffer of some
window has another file type, `OpenFile` opens the file in the first such window in
enumeration order and focuses it; it creates no window and sets no width. -/
theorem OpenFile_routing (host : Host H) (f : Finder) (path : String) (w0 : World H)
    (ws : List Window)
    (hW : host.Windows w0.host = .ok ws)
    (hSet : ∀ h w, (host.exec h (.SetWidth w f.width)).1 = .ok ())
    (hFocus : ∀ h w, (host.exec h (.Focus w)).1 = .ok ())
    (hOpen : ∀ h w, (host.exec h (.WindowOpen w path)).1 = .ok ()) :
    ((∀ v ∈ ws, ∃ b, host.WindowBuffer w0.host v = .ok b
          ∧ host.FileType w0.host b = .ok f.fileType) →
        ∀ nw ws', (host.exec w0.host (.CreateWindowRight path)).1 = .ok nw →
          f.Windows host (host.exec w0.host (.CreateWindowRight path)).2 = .ok ws' →
          (f.OpenFile host path w0).1 = .ok ()
          ∧ (f.OpenFile host path w0).2.log =
              w0.log ++ [.CreateWindowRight path] ++ ws'.map (fun w => Call.SetWidth w f.width)
                ++ [.Focus nw])
    ∧ (∀ pre w post b ft, ws = pre ++ w :: post →
        (∀ v ∈ pre, ∃ b, host.WindowBuffer w0.host v = .ok b
          ∧ host.FileType w0.host b = .ok f.fileType) →
        host.WindowBuffer w0.host w = .ok b → host.FileType w0.host b = .ok ft →
        ft ≠ f.fileType →
          (f.OpenFile host path w0).1 = .ok ()
          ∧ (f.OpenFile host path w0).2.log = w0.log ++ [.WindowOpen w path, .Focus w]) := by
  refine ⟨?_, ?_⟩
  · intro hall nw ws' hC hWin
    have hskip := openFileLoop_skip host f path (do
      let w ← call host (.CreateWindowRight path)
      f.ResetWindowWidth host
      call host (.Focus w)) ws [] w0 hall
    rw [List.append_nil] at hskip
    simp only [Finder.OpenFile, M.bind_apply, M.query_apply, hW, hskip, Finder.openFileLoop]
    rw [call_of_ok host (.CreateWindowRight path) w0 nw hC]
    simp only [Finder.ResetWindowWidth, M.bind_apply, M.query_apply, hWin]
    have hloop := setWidth_loop host f.width hSet ws'
      { host := (host.exec w0.host (.CreateWindowRight path)).2,
        log := w0.log ++ [.CreateWindowRight path] }
    rcases hE : Finder.eachWindow (fun w => call host (.SetWidth w f.width)) ws'
      { host := (host.exec w0.host (.CreateWindowRight path)).2,
        log := w0.log ++ [.CreateWindowRight path] } with ⟨r, w1⟩
    rw [hE] at hloop
    simp only at hloop
    obtain ⟨hr, hlog⟩ := hloop
    subst hr
    simp only
    rw [call_of_ok host (.Focus nw) w1 () (hFocus w1.host nw)]
    simp only [hlog, true_and]
  · intro pre w post b ft hws hpre hb hft hne
    have hskip := openFileLoop_skip host f path (do
      let w ← call host (.CreateWindowRight path)
      f.ResetWindowWidth host
      call host (.Focus w)) pre (w :: post) w0 hpre
    simp only [Finder.OpenFile, M.bind_apply, M.query_apply, hW, hws, hskip,
      Finder.openFileLoop, hb, hft, ne_eq, hne, not_false_eq_true, if_true]
    rw [call_of_ok host (.WindowOpen w path) w0 () (hOpen w0.host w)]
    simp only
    rw [call_of_ok host (.Focus w) _ () (hFocus _ w)]
    simp

/-- C8 (witness): with two panes and no other window, `OpenFile` from the first pane
creates a window on the right, resizes the window of the first pane and focuses the
new window. -/
theorem OpenFile_routing_witness :
    Editor.host.Windows twoPanes.world.host = .ok [4, 1]
    ∧ (pane0.OpenFile Editor.host "/w/a.txt" twoPanes.world).1 = .ok ()
    ∧ (pane0.OpenFile Editor.host "/w/a.txt" twoPanes.world).2.log =
        twoPanes.world.log ++ [.CreateWindowRight "/w/a.txt"]
          ++ [(1 : Window)].map (fun w => Call.SetWidth w pane0.width) ++ [.Focus 6] :=
  ⟨rfl,
    (OpenFile_routing Editor.host pane0 "/w/a.txt" twoPanes.world [4, 1] rfl
      (fun _ _ => rfl) (fun _ _ => rfl) (fun _ _ => rfl)).1
      (fun v hv => by
        rcases List.mem_cons.1 hv with rfl | hv
        · exact ⟨5, rfl, rfl⟩
        · rcases List.mem_cons.1 hv with rfl | hv
          · exact ⟨2, rfl, rfl⟩
          · cases hv)
      6 [1] rfl rfl⟩

/-- C8 (counterexample): with two panes and no other window, `OpenFile` from the
first pane makes three calls, none of which sets the width of the window of the
second pane. -/
theorem OpenFile_leaves_other_pane :
    pane1 ∈ twoPanes.finders
    ∧ pane1.Windows Editor.host twoPanes.world.host = .ok [4]
    ∧ pane1.Windows Editor.host
        (pane0.OpenFile Editor.host "/w/a.txt" twoPanes.world).2.host = .ok [4]
    ∧ (pane0.OpenFile Editor.host "/w/a.txt" twoPanes.world).1 = .ok ()
    ∧ (pane0.OpenFile Editor.host "/w/a.txt" twoPanes.world).2.log =
        twoPanes.world.log ++ [.CreateWindowRight "/w/a.txt", .SetWidth 1 30, .Focus 6]
    ∧ Call.SetWidth 4 pane1.width ∉
        [Call.CreateWindowRight "/w/a.txt", Call.SetWidth 1 30, Call.Focus 6] :=
  ⟨by decide, rfl, rfl, rfl, rfl, by decide⟩

end NvimFinder
